import Mathlib

/-!
Shallow embedding of the payment-agent system core in Lean 4.

Sources embedded (from the repository):
  - src/src/models/state.py        (data model, AgentState.can_take_action)
  - src/src/agent/observer.py      (PaymentObserver: sliding window, stats)
  - src/src/agent/reasoner.py      (PaymentReasoner: pattern detectors)
  - src/src/agent/executor.py      (PaymentExecutor: execute / rollback)
  - src/src/agent/learner.py       (update_decision_weights)

Conventions of the embedding:
  - Python floats are modelled as rationals (ℚ); `datetime` values as
    numbers (Int for observer timestamps, ℚ minutes for executor clocks),
    with "now" passed in explicitly wherever the source calls
    `datetime.now()`.
  - Python `dict`s are insertion-ordered association lists; `defaultdict`
    semantics (reading materialises a default entry) are modelled by
    `bumpCell`/`bumpCount`, which update in place or append a defaulted
    entry.
  - Python `set`s of strings are `Finset String`.
  - `%`-style float formatting inside human-readable strings is not
    computable over ℚ; the message fragments that the source produces by
    formatting are abstracted by a formatting parameter `fmt : ℚ → String`
    (all theorems are proved for every `fmt`).
  - `PaymentReasoner._calculate_confidence` uses `math.exp`, which has no
    executable counterpart over ℚ; detectors therefore take the confidence
    function `conf` as a parameter and all theorems hold for every `conf`.
-/

/-! ## Data model (src/src/models/state.py) -/

inductive PaymentStatus
  | success
  | failed
  | pending
  | retry
deriving DecidableEq, Repr

inductive ActionType
  | adjust_retry
  | circuit_breaker
  | route_change
  | method_suppress
  | alert_ops
  | no_action
deriving DecidableEq, Repr

inductive RiskLevel
  | low
  | medium
  | high
  | critical
deriving DecidableEq, Repr

inductive AuthorizationLevel
  | automatic
  | semi_automatic
  | manual
deriving DecidableEq, Repr

/-- PaymentTransaction (the fields the core reads; `amount`, `currency`,
`retry_count` and `processor` are carried by the source record but never
read by the windowing/stats/detector code embedded here). -/
structure PaymentTransaction where
  transaction_id : String
  timestamp : Int
  payment_method : String
  issuer : String
  merchant_id : String
  status : PaymentStatus
  error_code : Option String := none
  error_message : Option String := none
  latency_ms : ℚ := 0
  is_retry : Bool := false
  original_transaction_id : Option String := none
  region : String := "unknown"
deriving DecidableEq, Repr

/-- One `{success, failed, total}` counter triple. Counters are `Int`
because `_remove_from_stats` decrements without a guard; non-negativity
is proved, not assumed. -/
structure Cell where
  success : Int
  failed : Int
  total : Int
deriving DecidableEq, Repr

def Cell.zero : Cell := ⟨0, 0, 0⟩

/-- A Python dict with `Cell` values, as an insertion-ordered assoc list. -/
abbrev StatDict := List (String × Cell)

/-- Reading `d[k]` (first match; `Cell.zero` is the defaultdict default). -/
def lookupCell (d : StatDict) (k : String) : Cell :=
  match d.find? (fun p => p.1 = k) with
  | some p => p.2
  | none => Cell.zero

/-- `d[k] = f d[k]` with defaultdict materialisation: update every entry
keyed `k` in place, or append a freshly defaulted entry. -/
def bumpCell (d : StatDict) (k : String) (f : Cell → Cell) : StatDict :=
  if d.any (fun p => p.1 = k) then
    d.map (fun p => if p.1 = k then (p.1, f p.2) else p)
  else
    d ++ [(k, f Cell.zero)]

/-- Same shape for the integer-count dicts (`error_codes`, etc.). -/
def bumpCount (d : List (String × Int)) (k : String) (f : Int → Int) :
    List (String × Int) :=
  if d.any (fun p => p.1 = k) then
    d.map (fun p => if p.1 = k then (p.1, f p.2) else p)
  else
    d ++ [(k, f 0)]

def lookupCount (d : List (String × Int)) (k : String) : Int :=
  match d.find? (fun p => p.1 = k) with
  | some p => p.2
  | none => 0

/-- Retry bookkeeping per original transaction id. -/
structure RetryCell where
  attempted : Int
  succeeded : Int
deriving DecidableEq, Repr

def bumpRetry (d : List (String × RetryCell)) (k : String)
    (f : RetryCell → RetryCell) : List (String × RetryCell) :=
  if d.any (fun p => p.1 = k) then
    d.map (fun p => if p.1 = k then (p.1, f p.2) else p)
  else
    d ++ [(k, f ⟨0, 0⟩)]

/-- Ring dict for by-issuer / by-method latency deques. -/
def bumpRing (d : List (String × List ℚ)) (k : String)
    (f : List ℚ → List ℚ) : List (String × List ℚ) :=
  if d.any (fun p => p.1 = k) then
    d.map (fun p => if p.1 = k then (p.1, f p.2) else p)
  else
    d ++ [(k, f [])]

def lookupRing (d : List (String × List ℚ)) (k : String) : List ℚ :=
  match d.find? (fun p => p.1 = k) with
  | some p => p.2
  | none => []

/-- `deque(maxlen=cap).append x`: drop from the left once over capacity. -/
def pushRing (cap : Nat) (l : List ℚ) (x : ℚ) : List ℚ :=
  let l' := l ++ [x]
  if cap < l'.length then l'.drop (l'.length - cap) else l'

/-! ## Observer state (src/src/agent/observer.py, `PaymentObserver`) -/

/-- The five stats dimensions of `PaymentObserver.stats`. -/
inductive Dim
  | overall
  | byIssuer
  | byMethod
  | byRegion
  | byMerchant
deriving DecidableEq, Repr

/-- The dict key a transaction contributes to in each dimension
(`'current'` for the overall dimension). -/
def keyOf : Dim → PaymentTransaction → String
  | Dim.overall, _ => "current"
  | Dim.byIssuer, t => t.issuer
  | Dim.byMethod, t => t.payment_method
  | Dim.byRegion, t => t.region
  | Dim.byMerchant, t => t.merchant_id

structure ObserverState where
  window : List PaymentTransaction
  statsOverall : StatDict
  statsByIssuer : StatDict
  statsByMethod : StatDict
  statsByRegion : StatDict
  statsByMerchant : StatDict
  latOverall : List ℚ
  latByIssuer : List (String × List ℚ)
  latByMethod : List (String × List ℚ)
  error_codes : List (String × Int)
  error_messages : List (String × Int)
  retry_stats : List (String × RetryCell)
deriving DecidableEq, Repr

def initObserver : ObserverState :=
  ⟨[], [], [], [], [], [], [], [], [], [], [], []⟩

def statsOf (s : ObserverState) : Dim → StatDict
  | Dim.overall => s.statsOverall
  | Dim.byIssuer => s.statsByIssuer
  | Dim.byMethod => s.statsByMethod
  | Dim.byRegion => s.statsByRegion
  | Dim.byMerchant => s.statsByMerchant

/-- `status_key = 'success' if status == SUCCESS else 'failed'`. -/
def isSuccessTx (t : PaymentTransaction) : Bool :=
  t.status = PaymentStatus.success

def cellAdd (succ : Bool) (c : Cell) : Cell :=
  if succ then ⟨c.success + 1, c.failed, c.total + 1⟩
  else ⟨c.success, c.failed + 1, c.total + 1⟩

def cellSub (succ : Bool) (c : Cell) : Cell :=
  if succ then ⟨c.success - 1, c.failed, c.total - 1⟩
  else ⟨c.success, c.failed - 1, c.total - 1⟩

/-- `PaymentObserver._update_stats`. -/
def updateStats (t : PaymentTransaction) (s : ObserverState) : ObserverState :=
  { s with
    statsOverall := bumpCell s.statsOverall (keyOf Dim.overall t) (cellAdd (isSuccessTx t))
    statsByIssuer := bumpCell s.statsByIssuer (keyOf Dim.byIssuer t) (cellAdd (isSuccessTx t))
    statsByMethod := bumpCell s.statsByMethod (keyOf Dim.byMethod t) (cellAdd (isSuccessTx t))
    statsByRegion := bumpCell s.statsByRegion (keyOf Dim.byRegion t) (cellAdd (isSuccessTx t))
    statsByMerchant := bumpCell s.statsByMerchant (keyOf Dim.byMerchant t) (cellAdd (isSuccessTx t)) }

/-- `PaymentObserver._remove_from_stats`. -/
def removeFromStats (t : PaymentTransaction) (s : ObserverState) : ObserverState :=
  { s with
    statsOverall := bumpCell s.statsOverall (keyOf Dim.overall t) (cellSub (isSuccessTx t))
    statsByIssuer := bumpCell s.statsByIssuer (keyOf Dim.byIssuer t) (cellSub (isSuccessTx t))
    statsByMethod := bumpCell s.statsByMethod (keyOf Dim.byMethod t) (cellSub (isSuccessTx t))
    statsByRegion := bumpCell s.statsByRegion (keyOf Dim.byRegion t) (cellSub (isSuccessTx t))
    statsByMerchant := bumpCell s.statsByMerchant (keyOf Dim.byMerchant t) (cellSub (isSuccessTx t)) }

/-- The `while` loop of `_cleanup_old_transactions`, popping from the
front of the window list: `w` is the current window contents. -/
def cleanupGo (cutoff : Int) : List PaymentTransaction → ObserverState → ObserverState
  | [], s => { s with window := [] }
  | t :: rest, s =>
    if t.timestamp < cutoff then
      cleanupGo cutoff rest (removeFromStats t s)
    else
      { s with window := t :: rest }

/-- `PaymentObserver._cleanup_old_transactions` with
`cutoff = now - window_size` passed in. -/
def cleanupOld (cutoff : Int) (s : ObserverState) : ObserverState :=
  cleanupGo cutoff s.window s

/-- `PaymentObserver._track_latency`. -/
def trackLatency (t : PaymentTransaction) (s : ObserverState) : ObserverState :=
  if 0 < t.latency_ms then
    { s with
      latOverall := pushRing 1000 s.latOverall t.latency_ms
      latByIssuer := bumpRing s.latByIssuer t.issuer (fun l => pushRing 100 l t.latency_ms)
      latByMethod := bumpRing s.latByMethod t.payment_method (fun l => pushRing 100 l t.latency_ms) }
  else s

/-- Error tracking inside `ingest_transaction`. -/
def trackErrors (t : PaymentTransaction) (s : ObserverState) : ObserverState :=
  if t.status = PaymentStatus.failed then
    let s1 :=
      match t.error_code with
      | some c => { s with error_codes := bumpCount s.error_codes c (fun n => n + 1) }
      | none => s
    match t.error_message with
    | some m => { s1 with error_messages := bumpCount s1.error_messages m (fun n => n + 1) }
    | none => s1
  else s

/-- Retry tracking inside `ingest_transaction`. -/
def trackRetries (t : PaymentTransaction) (s : ObserverState) : ObserverState :=
  if t.is_retry then
    let oid :=
      match t.original_transaction_id with
      | some o => o
      | none => t.transaction_id
    let s1 := { s with
      retry_stats := bumpRetry s.retry_stats oid (fun c => ⟨c.attempted + 1, c.succeeded⟩) }
    if t.status = PaymentStatus.success then
      { s1 with
        retry_stats := bumpRetry s1.retry_stats oid (fun c => ⟨c.attempted, c.succeeded + 1⟩) }
    else s1
  else s

/-- `PaymentObserver.ingest_transaction` (the `AgentMemory` append, which
no embedded query reads, is not modelled). `now` is the wall clock at the
call. -/
def ingestTransaction (now windowSize : Int) (t : PaymentTransaction)
    (s : ObserverState) : ObserverState :=
  let s1 := { s with window := s.window ++ [t] }
  let s2 := cleanupOld (now - windowSize) s1
  let s3 := updateStats t s2
  let s4 := trackLatency t s3
  let s5 := trackErrors t s4
  trackRetries t s5

/-- `PaymentObserver.get_success_rate`. -/
def getSuccessRate (s : ObserverState) (d : Dim) (k : String) : ℚ :=
  let c := lookupCell (statsOf s d) k
  if c.total = 0 then 1 else (c.success : ℚ) / (c.total : ℚ)

def getTransactionVolume (s : ObserverState) (d : Dim) (k : String) : Int :=
  (lookupCell (statsOf s d) k).total

/-! ### Latency statistics (`get_latency_stats`) -/

/-- Stable insertion sort by a boolean "comes before or ties" test,
modelling Python's stable `sorted`. -/
def insertSorted {α : Type} (le : α → α → Bool) (x : α) : List α → List α
  | [] => [x]
  | y :: ys => if le x y then x :: y :: ys else y :: insertSorted le x ys

def sortListBy {α : Type} (le : α → α → Bool) (l : List α) : List α :=
  l.foldr (insertSorted le) []

/-- `np.percentile(a, q)` with the default linear interpolation. -/
def percentile (l : List ℚ) (q : ℚ) : ℚ :=
  let sorted := sortListBy (fun a b => a ≤ b) l
  let n := sorted.length
  if n = 0 then 0
  else
    let pos : ℚ := q / 100 * ((n : ℚ) - 1)
    let i : Nat := pos.floor.toNat
    let lo := sorted.getD i 0
    let hi := sorted.getD (min (i + 1) (n - 1)) 0
    lo + (pos - pos.floor) * (hi - lo)

structure LatencyStats where
  p50 : ℚ
  p95 : ℚ
  p99 : ℚ
  mean : ℚ
  max : ℚ
deriving DecidableEq, Repr

def latencyStatsOfList (l : List ℚ) : LatencyStats :=
  if l = [] then ⟨0, 0, 0, 0, 0⟩
  else
    ⟨percentile l 50, percentile l 95, percentile l 99,
     l.sum / (l.length : ℚ),
     l.foldl max (l.headD 0)⟩

/-- `PaymentObserver.get_latency_stats('overall')`. -/
def getLatencyStatsOverall (s : ObserverState) : LatencyStats :=
  latencyStatsOfList s.latOverall

def getLatencyStatsByIssuer (s : ObserverState) (k : String) : LatencyStats :=
  latencyStatsOfList (lookupRing s.latByIssuer k)

def getLatencyStatsByMethod (s : ObserverState) (k : String) : LatencyStats :=
  latencyStatsOfList (lookupRing s.latByMethod k)

/-- `PaymentObserver.get_retry_efficiency`. -/
def getRetryEfficiency (s : ObserverState) : ℚ :=
  if s.retry_stats = [] then 1
  else
    let att := (s.retry_stats.map (fun p => p.2.attempted)).sum
    let succ := (s.retry_stats.map (fun p => p.2.succeeded)).sum
    if att = 0 then 1 else (succ : ℚ) / (att : ℚ)

/-- `PaymentObserver.get_top_errors` (stable sort by count descending). -/
def getTopErrors (s : ObserverState) (n : Nat) : List (String × Int) :=
  (sortListBy (fun a b => b.2 ≤ a.2) s.error_codes).take n

/-- One entry of `get_issuer_health` / `get_method_performance`. -/
structure HealthEntry where
  success_rate : ℚ
  failure_rate : ℚ
  volume : Int
  avg_latency : ℚ
  p95_latency : ℚ
deriving DecidableEq, Repr

/-- `PaymentObserver.get_issuer_health` (skips zero-total keys). -/
def getIssuerHealth (s : ObserverState) : List (String × HealthEntry) :=
  s.statsByIssuer.filterMap (fun p =>
    if p.2.total = 0 then none
    else
      let rate := (p.2.success : ℚ) / (p.2.total : ℚ)
      let lat := getLatencyStatsByIssuer s p.1
      some (p.1, ⟨rate, 1 - rate, p.2.total, lat.mean, lat.p95⟩))

/-- `PaymentObserver.get_method_performance`. -/
def getMethodPerformance (s : ObserverState) : List (String × HealthEntry) :=
  s.statsByMethod.filterMap (fun p =>
    if p.2.total = 0 then none
    else
      let rate := (p.2.success : ℚ) / (p.2.total : ℚ)
      let lat := getLatencyStatsByMethod s p.1
      some (p.1, ⟨rate, 1 - rate, p.2.total, lat.mean, lat.p95⟩))

/-! ## Reasoner (src/src/agent/reasoner.py, `PaymentReasoner`) -/

/-- Reasoner baselines (`PaymentReasoner.baselines`); the per-key
defaultdicts become total functions. -/
structure Baselines where
  overall_success_rate : ℚ
  issuer_success_rates : String → ℚ
  method_success_rates : String → ℚ
  avg_latency : ℚ
  retry_efficiency : ℚ

def defaultBaselines : Baselines :=
  ⟨95/100, fun _ => 95/100, fun _ => 95/100, 200, 60/100⟩

/-- A detected `Pattern`. The `description` and `evidence` strings are
assembled with float formatting in the source and carry no further data;
they are not modelled. `metrics` is the dict of named numbers. -/
structure Pattern where
  pattern_type : String
  severity : ℚ
  confidence : ℚ
  affected_dimension : String
  affected_value : String
  metrics : List (String × ℚ)
deriving DecidableEq, Repr

/-- `PaymentReasoner._detect_issuer_degradation`; `conf` stands for
`_calculate_confidence` (see the header comment). -/
def detectIssuerDegradation (conf : Int → ℚ → ℚ) (b : Baselines)
    (s : ObserverState) : List Pattern :=
  (getIssuerHealth s).filterMap (fun p =>
    let issuer := p.1
    let health := p.2
    let baseline := b.issuer_success_rates issuer
    let degradation := baseline - health.success_rate
    if 10 ≤ health.volume ∧ 15/100 ≤ degradation then
      some
        { pattern_type := "issuer_degradation"
          severity := min (degradation / (3/10)) 1
          confidence := conf health.volume degradation
          affected_dimension := "issuer"
          affected_value := issuer
          metrics :=
            [("current_success_rate", health.success_rate),
             ("baseline_success_rate", baseline),
             ("degradation", degradation),
             ("volume", (health.volume : ℚ)),
             ("avg_latency", health.avg_latency)] }
    else none)

/-- `PaymentReasoner._detect_retry_storms`. -/
def detectRetryStorms (conf : Int → ℚ → ℚ) (s : ObserverState) : List Pattern :=
  let total := getTransactionVolume s Dim.overall "current"
  let retryCount : Int := ((s.window.filter (fun t => t.is_retry)).length : Int)
  if total = 0 then []
  else
    let pct : ℚ := (retryCount : ℚ) / (total : ℚ)
    let eff := getRetryEfficiency s
    if 40/100 ≤ pct then
      [{ pattern_type := "retry_storm"
         severity := min (pct / (6/10)) 1
         confidence := conf total (pct - 2/10)
         affected_dimension := "overall"
         affected_value := "retry_behavior"
         metrics :=
           [("retry_percentage", pct),
            ("retry_efficiency", eff),
            ("total_retries", (retryCount : ℚ)),
            ("total_transactions", (total : ℚ))] }]
    else []

/-- `PaymentReasoner._detect_method_fatigue`. -/
def detectMethodFatigue (conf : Int → ℚ → ℚ) (b : Baselines)
    (s : ObserverState) : List Pattern :=
  (getMethodPerformance s).filterMap (fun p =>
    let method := p.1
    let perf := p.2
    let baseline := b.method_success_rates method
    let degradation := baseline - perf.success_rate
    if 20 ≤ perf.volume ∧ 20/100 ≤ degradation then
      some
        { pattern_type := "method_fatigue"
          severity := min (degradation / (4/10)) 1
          confidence := conf perf.volume degradation
          affected_dimension := "payment_method"
          affected_value := method
          metrics :=
            [("current_success_rate", perf.success_rate),
             ("baseline_success_rate", baseline),
             ("degradation", degradation),
             ("volume", (perf.volume : ℚ))] }
    else none)

/-- `PaymentReasoner._detect_latency_spikes`. -/
def detectLatencySpikes (b : Baselines) (s : ObserverState) : List Pattern :=
  let lat := getLatencyStatsOverall s
  let baseline := b.avg_latency
  if baseline * (3/2) < lat.p95 then
    let factor := lat.p95 / baseline
    [{ pattern_type := "latency_spike"
       severity := min ((factor - 1) / 2) 1
       confidence := 8/10
       affected_dimension := "overall"
       affected_value := "latency"
       metrics :=
         [("p50", lat.p50), ("p95", lat.p95), ("p99", lat.p99),
          ("mean", lat.mean), ("baseline", baseline),
          ("spike_factor", factor)] }]
  else []

/-- `PaymentReasoner._detect_error_clusters`. -/
def detectErrorClusters (conf : Int → ℚ → ℚ) (s : ObserverState) : List Pattern :=
  (getTopErrors s 5).filterMap (fun (p : String × Int) =>
    let code := p.1
    let count := p.2
    if 10 ≤ count then
      let total := getTransactionVolume s Dim.overall "current"
      let rate : ℚ := (count : ℚ) / (max total 1 : ℚ)
      some
        { pattern_type := "error_cluster"
          severity := min (rate / (1/10)) 1
          confidence := conf count rate
          affected_dimension := "error_code"
          affected_value := code
          metrics :=
            [("error_count", (count : ℚ)),
             ("total_transactions", (total : ℚ)),
             ("error_rate", rate)] }
    else none)

/-- `PaymentReasoner._detect_geographic_issues`. -/
def detectGeographicIssues (conf : Int → ℚ → ℚ) (s : ObserverState) : List Pattern :=
  s.statsByRegion.filterMap (fun p =>
    let region := p.1
    let cell := p.2
    if cell.total < 10 then none
    else
      let rate : ℚ := if cell.total = 0 then 1 else (cell.success : ℚ) / (cell.total : ℚ)
      let overallRate := getSuccessRate s Dim.overall "current"
      let degradation := overallRate - rate
      if 20/100 ≤ degradation then
        some
          { pattern_type := "geographic_issue"
            severity := min (degradation / (4/10)) 1
            confidence := conf cell.total degradation
            affected_dimension := "region"
            affected_value := region
            metrics :=
              [("region_success_rate", rate),
               ("overall_success_rate", overallRate),
               ("degradation", degradation),
               ("volume", (cell.total : ℚ))] }
      else none)

/-- `PaymentReasoner.analyze`: run every detector, then stable-sort by
severity descending. -/
def analyze (conf : Int → ℚ → ℚ) (b : Baselines) (s : ObserverState) :
    List Pattern :=
  let patterns :=
    detectIssuerDegradation conf b s ++ detectRetryStorms conf s ++
    detectMethodFatigue conf b s ++ detectLatencySpikes b s ++
    detectErrorClusters conf s ++ detectGeographicIssues conf s
  sortListBy (fun p q => q.severity ≤ p.severity) patterns

/-! ## Observer step relation (for the window/stats invariants) -/

/-- The observer-mutating operations: an ingestion (with the wall clock
and configured window size at that call), or a bare eviction pass with
cutoff `now - window_size` (the source runs it inside every ingestion;
a standalone eviction models time passing with no traffic). -/
inductive ObsStep
  | ingest (now windowSize : Int) (t : PaymentTransaction)
  | cleanup (cutoff : Int)

def obsStepApply (st : ObsStep) (s : ObserverState) : ObserverState :=
  match st with
  | ObsStep.ingest now windowSize t => ingestTransaction now windowSize t s
  | ObsStep.cleanup cutoff => cleanupOld cutoff s

def obsRun (steps : List ObsStep) : ObserverState :=
  steps.foldl (fun s st => obsStepApply st s) initObserver

/-! ## Actions and AgentState (src/src/models/state.py) -/

/-- The `parameters` dict entries that the executor reads, by name.
Absent keys are `none` (`dict.get` default). -/
structure ActionParams where
  issuer : Option String := none
  duration_minutes : Option ℚ := none
  payment_method : Option String := none
  max_retries : Option Int := none
  backoff_multiplier : Option ℚ := none
  timeout_ms : Option ℚ := none
  alternative_routing : Option Bool := none
  reduce_routing_pct : Option ℚ := none
deriving DecidableEq, Repr

/-- `Action` from src/src/models/state.py (the fields the executor and
gating read); named `AgentAction` here because Mathlib already has an
`Action`. -/
structure AgentAction where
  action_id : String
  action_type : ActionType
  target : String
  parameters : ActionParams
  risk_level : RiskLevel
  authorization_level : AuthorizationLevel
  confidence : ℚ := 0
  executed_at : Option ℚ := none
  completed_at : Option ℚ := none
  status : String := "pending"
  approver : Option String := none
deriving DecidableEq, Repr

/-- `retry_strategies[target]` value. -/
structure RetryStrategy where
  max_retries : Option Int := none
  backoff_multiplier : Option ℚ := none
  timeout_ms : Option ℚ := none
deriving DecidableEq, Repr

/-- `routing_overrides[target]` value. -/
structure RoutingOverride where
  alternative_routing : Bool
  reduce_routing_pct : ℚ
  applied_at : ℚ
deriving DecidableEq, Repr

/-- `AgentState` (control knobs and safety counters; the aggregate
metric fields not read by the embedded operations are omitted). -/
structure AgentState where
  active_circuit_breakers : Finset String := ∅
  suppressed_methods : Finset String := ∅
  retry_strategies : List (String × RetryStrategy) := []
  routing_overrides : List (String × RoutingOverride) := []
  actions_taken_last_hour : Int := 0
  rollbacks_last_hour : Int := 0
  actions_executed : Int := 0
deriving DecidableEq

/-- Generic dict write `d[k] = v` (replace in place or append). -/
def dictSet {α : Type} (d : List (String × α)) (k : String) (v : α) :
    List (String × α) :=
  if d.any (fun p => p.1 = k) then
    d.map (fun p => if p.1 = k then (p.1, v) else p)
  else
    d ++ [(k, v)]

def dictGet {α : Type} (d : List (String × α)) (k : String) : Option α :=
  match d.find? (fun p => p.1 = k) with
  | some p => some p.2
  | none => none

/-- `del d[k]`. -/
def dictDel {α : Type} (d : List (String × α)) (k : String) :
    List (String × α) :=
  d.filter (fun p => ¬ p.1 = k)

/-- Python truthiness of the optional `approver` string:
`not action.approver` is true for `None` and for the empty string. -/
def approverMissing (a : AgentAction) : Bool :=
  match a.approver with
  | none => true
  | some s => s = ""

/-- `AgentState.can_take_action`. -/
def canTakeAction (s : AgentState) (a : AgentAction) : Bool × String :=
  if 50 ≤ s.actions_taken_last_hour then
    (false, "Hourly action limit reached")
  else if 10 ≤ s.rollbacks_last_hour then
    (false, "Too many rollbacks in last hour")
  else if (a.risk_level = RiskLevel.high ∨ a.risk_level = RiskLevel.critical) ∧
      3 ≤ s.rollbacks_last_hour then
    (false, "High-risk action blocked due to recent rollbacks")
  else
    (true, "Action allowed")

/-! ## Executor (src/src/agent/executor.py, `PaymentExecutor`) -/

/-- The baseline snapshot `_capture_baseline_metrics` builds from the
observer (a dict of `success_rate`, `avg_latency`, `transaction_volume`
and a timestamp). -/
structure Metrics where
  success_rate : ℚ
  avg_latency : ℚ
  transaction_volume : Int
  timestamp : ℚ
deriving DecidableEq, Repr

def captureBaselineMetrics (s : ObserverState) (now : ℚ) : Metrics :=
  ⟨getSuccessRate s Dim.overall "current",
   (getLatencyStatsOverall s).mean,
   getTransactionVolume s Dim.overall "current",
   now⟩

/-- One `execution_log` entry (the fields `monitor_and_rollback` reads). -/
structure LogEntry where
  action_id : String
  baseline_metrics : Metrics
deriving DecidableEq, Repr

structure ExecutorState where
  execution_log : List LogEntry := []
  active_interventions : List (String × AgentAction) := []
deriving DecidableEq, Repr

def initExecutor : ExecutorState := ⟨[], []⟩

/-- `PaymentExecutor.rollback_thresholds` (the two wired-up triggers). -/
def successRateDropThresh : ℚ := 5/100

def latencyIncreaseThresh : ℚ := 50/100

/-- `PaymentExecutor._pre_execution_checks`. -/
def preExecutionChecks (ex : ExecutorState) (st : AgentState) (a : AgentAction) :
    Bool × String :=
  if a.authorization_level = AuthorizationLevel.manual ∧ approverMissing a then
    (false, "Manual authorization required")
  else if a.authorization_level = AuthorizationLevel.semi_automatic ∧
      approverMissing a ∧ a.risk_level ≠ RiskLevel.low then
    (false, "Semi-automatic action requires approval for non-low risk")
  else
    match canTakeAction st a with
    | (false, reason) => (false, reason)
    | (true, _) =>
      match ex.active_interventions.find? (fun p =>
          p.2.action_type = a.action_type ∧ p.2.target = a.target) with
      | some p => (false, "Similar action already active: " ++ p.2.action_id)
      | none => (true, "Checks passed")

/-- `PaymentExecutor._execute_by_type` and the per-type handlers; returns
`(success, message, updated AgentState)`. `now` is the wall clock used by
`_execute_route_change` for `applied_at`. -/
def executeByType (now : ℚ) (a : AgentAction) (st : AgentState) :
    Bool × String × AgentState :=
  match a.action_type with
  | ActionType.circuit_breaker =>
    match a.parameters.issuer with
    | none => (false, "No issuer specified", st)
    | some issuer =>
      if issuer = "" then (false, "No issuer specified", st)
      else
        (true, "Circuit breaker activated for " ++ issuer,
         { st with active_circuit_breakers := insert issuer st.active_circuit_breakers })
  | ActionType.adjust_retry =>
    let strategy := (dictGet st.retry_strategies a.target).getD {}
    let strategy :=
      match a.parameters.max_retries with
      | some v => { strategy with max_retries := some v }
      | none => strategy
    let strategy :=
      match a.parameters.backoff_multiplier with
      | some v => { strategy with backoff_multiplier := some v }
      | none => strategy
    let strategy :=
      match a.parameters.timeout_ms with
      | some v => { strategy with timeout_ms := some v }
      | none => strategy
    (true, "Retry strategy adjusted for " ++ a.target,
     { st with retry_strategies := dictSet st.retry_strategies a.target strategy })
  | ActionType.route_change =>
    let ov : RoutingOverride :=
      ⟨(a.parameters.alternative_routing).getD false,
       (a.parameters.reduce_routing_pct).getD 0, now⟩
    (true, "Routing adjusted for " ++ a.target,
     { st with routing_overrides := dictSet st.routing_overrides a.target ov })
  | ActionType.method_suppress =>
    match a.parameters.payment_method with
    | none => (false, "No payment method specified", st)
    | some m =>
      if m = "" then (false, "No payment method specified", st)
      else
        (true, "Payment method " ++ m ++ " temporarily suppressed",
         { st with suppressed_methods := insert m st.suppressed_methods })
  | ActionType.alert_ops =>
    (true, "Alert sent to ops team", st)
  | ActionType.no_action =>
    (true, "No action taken (monitoring only)", st)

/-- `PaymentExecutor.execute`. Returns
`(success, message, action as mutated, AgentState, ExecutorState)`;
`baseline` stands for `_capture_baseline_metrics(observer)` taken before
the action runs. -/
def execute (now : ℚ) (baseline : Metrics) (a : AgentAction) (st : AgentState)
    (ex : ExecutorState) :
    Bool × String × AgentAction × AgentState × ExecutorState :=
  match preExecutionChecks ex st a with
  | (false, reason) => (false, reason, a, st, ex)
  | (true, _) =>
    let r := executeByType now a st
    let ok := r.1
    let msg := r.2.1
    let st' := r.2.2
    if ok then
      let a' := { a with status := "executed", executed_at := some now }
      let ex' : ExecutorState :=
        { execution_log := ex.execution_log ++ [⟨a'.action_id, baseline⟩]
          active_interventions := dictSet ex.active_interventions a'.action_id a' }
      let st'' := { st' with
        actions_taken_last_hour := st'.actions_taken_last_hour + 1
        actions_executed := st'.actions_executed + 1 }
      (true, msg, a', st'', ex')
    else
      (false, msg, { a with status := "failed" }, st', ex)

/-- `PaymentExecutor._should_rollback`; `fmt` abstracts the `:.1%`
number formatting inside the reason strings, `now` the wall clock. -/
def shouldRollback (fmt : ℚ → String) (now : ℚ) (a : AgentAction)
    (baseline current : Metrics) : Bool × String :=
  let drop := baseline.success_rate - current.success_rate
  if successRateDropThresh < drop then
    (true, "Success rate dropped " ++ fmt drop)
  else if 0 < baseline.avg_latency ∧
      latencyIncreaseThresh <
        (current.avg_latency - baseline.avg_latency) / baseline.avg_latency then
    (true, "Latency increased " ++
      fmt ((current.avg_latency - baseline.avg_latency) / baseline.avg_latency))
  else
    match a.executed_at with
    | some t =>
      if (a.parameters.duration_minutes).getD 30 < now - t then
        (true, "Action duration expired")
      else (false, "")
    | none => (false, "")

/-- `PaymentExecutor._rollback_action`. The Python `try` body cannot
raise in this model, so the result flag is always `true`; the mutated
`Action` is returned to model the in-place field writes. -/
def rollbackAction (now : ℚ) (a : AgentAction) (st : AgentState)
    (ex : ExecutorState) : Bool × AgentAction × AgentState × ExecutorState :=
  let st' :=
    match a.action_type with
    | ActionType.circuit_breaker =>
      match a.parameters.issuer with
      | some issuer =>
        { st with active_circuit_breakers := st.active_circuit_breakers.erase issuer }
      | none => st
    | ActionType.adjust_retry =>
      { st with retry_strategies := dictDel st.retry_strategies a.target }
    | ActionType.route_change =>
      { st with routing_overrides := dictDel st.routing_overrides a.target }
    | ActionType.method_suppress =>
      match a.parameters.payment_method with
      | some m => { st with suppressed_methods := st.suppressed_methods.erase m }
      | none => st
    | _ => st
  let ex' := { ex with
    active_interventions := ex.active_interventions.filter (fun p => ¬ p.1 = a.action_id) }
  let a' := { a with status := "rolled_back", completed_at := some now }
  (true, a', st', ex')

/-- `PaymentExecutor._find_baseline_for_action` (last log entry wins). -/
def findBaselineForAction (log : List LogEntry) (id : String) : Option Metrics :=
  match log.reverse.find? (fun e => e.action_id = id) with
  | some e => some e.baseline_metrics
  | none => none

/-- The loop body of `monitor_and_rollback` over the snapshot of
`active_interventions.items()`. -/
def monitorGo (fmt : ℚ → String) (now : ℚ) (current : Metrics) :
    List (String × AgentAction) → AgentState → ExecutorState →
    List String × AgentState × ExecutorState
  | [], st, ex => ([], st, ex)
  | (id, a) :: rest, st, ex =>
    match findBaselineForAction ex.execution_log id with
    | none => monitorGo fmt now current rest st ex
    | some baseline =>
      let sr := shouldRollback fmt now a baseline current
      if sr.1 then
        let r := rollbackAction now a st ex
        if r.1 then
          let st' := { r.2.2.1 with
            rollbacks_last_hour := r.2.2.1.rollbacks_last_hour + 1 }
          let rec' := monitorGo fmt now current rest st' r.2.2.2
          (id :: rec'.1, rec'.2)
        else
          monitorGo fmt now current rest r.2.2.1 r.2.2.2
      else
        monitorGo fmt now current rest st ex

/-- `PaymentExecutor.monitor_and_rollback`; `current` stands for the
snapshot `_capture_baseline_metrics(observer)` taken at entry. -/
def monitorAndRollback (fmt : ℚ → String) (now : ℚ) (current : Metrics)
    (st : AgentState) (ex : ExecutorState) :
    List String × AgentState × ExecutorState :=
  monitorGo fmt now current ex.active_interventions st ex

/-! ## Executor step relation (for the active-intervention invariant) -/

/-- The operations that touch `active_interventions`: an `execute` call
(with its wall clock and captured baseline) or a `monitor_and_rollback`
pass (with its clock and current-metrics snapshot). -/
inductive ExecStep
  | exec (now : ℚ) (baseline : Metrics) (a : AgentAction)
  | monitor (fmt : ℚ → String) (now : ℚ) (current : Metrics)

def execStepApply (step : ExecStep) (s : AgentState × ExecutorState) :
    AgentState × ExecutorState :=
  match step with
  | ExecStep.exec now baseline a =>
    let r := execute now baseline a s.1 s.2
    (r.2.2.2.1, r.2.2.2.2)
  | ExecStep.monitor fmt now current =>
    let r := monitorAndRollback fmt now current s.1 s.2
    (r.2.1, r.2.2)

/-- Runs from an arbitrary initial `AgentState` and an executor with an
empty active-intervention set (`PaymentExecutor.__init__`). -/
def execRun (st0 : AgentState) (steps : List ExecStep) :
    AgentState × ExecutorState :=
  steps.foldl (fun s step => execStepApply step s) (st0, initExecutor)

/-! ## Learner weight tuning (src/src/agent/learner.py,
`update_decision_weights`) -/

/-- One recorded outcome, as read by `update_decision_weights`:
`actual_impact['success_rate_delta']` and the `estimated_impact` entries
(with the `dict.get` defaults already applied). -/
structure OutcomeRec where
  actual_success_rate_delta : ℚ
  est_success_rate_delta : ℚ
  est_latency_delta_ms : ℚ
  est_cost_delta_per_txn : ℚ
deriving DecidableEq, Repr

/-- `decision_maker.weights`. -/
structure Weights where
  success_rate : ℚ
  latency : ℚ
  cost : ℚ
  risk : ℚ
deriving DecidableEq, Repr

/-- `DecisionMaker.__init__` weights. -/
def defaultWeights : Weights := ⟨40/100, 25/100, 20/100, 15/100⟩

/-- The `objective_scores['success_rate']` list: a `1.0` per outcome with
positive actual success delta and positive estimated success delta. -/
def scoresSuccessRate (outs : List OutcomeRec) : List ℚ :=
  outs.filterMap (fun o =>
    if 0 < o.actual_success_rate_delta ∧ 0 < o.est_success_rate_delta
    then some 1 else none)

/-- `objective_scores['latency']`: negative estimated latency is good. -/
def scoresLatency (outs : List OutcomeRec) : List ℚ :=
  outs.filterMap (fun o =>
    if 0 < o.actual_success_rate_delta ∧ o.est_latency_delta_ms < 0
    then some 1 else none)

/-- `objective_scores['cost']`: estimated cost at most 0.02 is good. -/
def scoresCost (outs : List OutcomeRec) : List ℚ :=
  outs.filterMap (fun o =>
    if 0 < o.actual_success_rate_delta ∧ o.est_cost_delta_per_txn ≤ 2/100
    then some 1 else none)

/-- `objective_scores['risk']`: no code path in
`update_decision_weights` ever appends to the risk list. -/
def scoresRisk (_outs : List OutcomeRec) : List ℚ := []

/-- The per-objective update inside the `for objective, scores` loop:
skip when the list is empty, else move by `lr · (mean − 0.5)` and clamp
into `[0.05, 0.60]`. -/
def updateObjective (lr w : ℚ) (scores : List ℚ) : ℚ :=
  if scores = [] then w
  else
    let avg := scores.sum / (scores.length : ℚ)
    max (5/100) (min (60/100) (w + lr * (avg - 1/2)))

/-- `PaymentLearner.update_decision_weights` (flattening
`action_outcomes.values()` into one outcome list): per-objective clamped
update, then normalisation to sum 1. -/
def updateDecisionWeights (lr : ℚ) (outs : List OutcomeRec) (w : Weights) :
    Weights :=
  let ws := updateObjective lr w.success_rate (scoresSuccessRate outs)
  let wl := updateObjective lr w.latency (scoresLatency outs)
  let wc := updateObjective lr w.cost (scoresCost outs)
  let wr := updateObjective lr w.risk (scoresRisk outs)
  let total := ws + wl + wc + wr
  ⟨ws / total, wl / total, wc / total, wr / total⟩

/-! ## Window/stats consistency (claims about observer invariants) -/

/-- Componentwise sum of counter triples. -/
def cellPlus (c1 c2 : Cell) : Cell :=
  ⟨c1.success + c2.success, c1.failed + c2.failed, c1.total + c2.total⟩

/-- The contribution of one transaction to the `(d, k)` counter cell. -/
def txCell (d : Dim) (k : String) (t : PaymentTransaction) : Cell :=
  if keyOf d t = k then
    (if isSuccessTx t then ⟨1, 0, 1⟩ else ⟨0, 1, 1⟩)
  else Cell.zero

/-- The counter cell the current window contents induce at `(d, k)`. -/
def windowCell (d : Dim) (k : String) (w : List PaymentTransaction) : Cell :=
  (w.map (fun t => txCell d k t)).foldr cellPlus Cell.zero

theorem windowCell_nil (d : Dim) (k : String) :
    windowCell d k [] = Cell.zero := rfl

theorem windowCell_cons (d : Dim) (k : String) (t : PaymentTransaction)
    (w : List PaymentTransaction) :
    windowCell d k (t :: w) = cellPlus (txCell d k t) (windowCell d k w) := rfl

theorem cellPlus_assoc (a b c : Cell) :
    cellPlus (cellPlus a b) c = cellPlus a (cellPlus b c) := by
  simp [cellPlus, Int.add_assoc]

theorem windowCell_append (d : Dim) (k : String)
    (w1 w2 : List PaymentTransaction) :
    windowCell d k (w1 ++ w2) =
      cellPlus (windowCell d k w1) (windowCell d k w2) := by
  induction w1 with
  | nil => simp [windowCell, cellPlus, Cell.zero]
  | cons t w ih =>
    simp only [List.cons_append, windowCell_cons, ih, cellPlus_assoc]

/-- `lookupCell` over the in-place-update branch of `bumpCell`, at the
bumped key. -/
theorem lookupCell_map_eq (d : StatDict) (k : String) (f : Cell → Cell) :
    lookupCell (d.map (fun p => if p.1 = k then (p.1, f p.2) else p)) k =
      match d.find? (fun p => decide (p.1 = k)) with
      | some p => f p.2
      | none => Cell.zero := by
  induction d with
  | nil => rfl
  | cons hd tl ih =>
    by_cases hk : hd.1 = k
    · rw [List.map_cons, if_pos hk]
      unfold lookupCell
      rw [List.find?_cons_of_pos _ (by simpa using hk),
        List.find?_cons_of_pos _ (by simpa using hk)]
    · rw [List.map_cons, if_neg hk]
      unfold lookupCell at ih ⊢
      rw [List.find?_cons_of_neg _ (by simpa using hk),
        List.find?_cons_of_neg _ (by simpa using hk)]
      exact ih

/-- `lookupCell` over the in-place-update branch of `bumpCell`, at any
other key. -/
theorem lookupCell_map_ne (d : StatDict) (k k' : String) (f : Cell → Cell)
    (h : ¬ k' = k) :
    lookupCell (d.map (fun p => if p.1 = k then (p.1, f p.2) else p)) k' =
      lookupCell d k' := by
  induction d with
  | nil => rfl
  | cons hd tl ih =>
    by_cases hk : hd.1 = k
    · have hk' : ¬ hd.1 = k' := fun hcon => h (hcon ▸ hk)
      rw [List.map_cons, if_pos hk]
      unfold lookupCell at ih ⊢
      rw [List.find?_cons_of_neg _ (by simpa using hk'),
        List.find?_cons_of_neg _ (by simpa using hk')]
      exact ih
    · rw [List.map_cons, if_neg hk]
      by_cases hk' : hd.1 = k'
      · unfold lookupCell
        rw [List.find?_cons_of_pos _ (by simpa using hk'),
          List.find?_cons_of_pos _ (by simpa using hk')]
      · unfold lookupCell at ih ⊢
        rw [List.find?_cons_of_neg _ (by simpa using hk'),
          List.find?_cons_of_neg _ (by simpa using hk')]
        exact ih

theorem lookupCell_append_single_self (d : StatDict) (k : String) (v : Cell)
    (hnone : d.find? (fun p => decide (p.1 = k)) = none) :
    lookupCell (d ++ [(k, v)]) k = v := by
  unfold lookupCell
  rw [List.find?_append, hnone, Option.none_or,
    List.find?_cons_of_pos _ (by simp)]

theorem lookupCell_append_single_ne (d : StatDict) (k k' : String) (v : Cell)
    (h : ¬ k' = k) :
    lookupCell (d ++ [(k, v)]) k' = lookupCell d k' := by
  unfold lookupCell
  rw [List.find?_append]
  cases hfind : d.find? (fun p => decide (p.1 = k')) with
  | some p => rfl
  | none =>
    rw [Option.none_or, List.find?_cons_of_neg _ (by simpa using fun hcon : k = k' => h hcon.symm)]
    rfl

theorem lookupCell_eq_zero_of_find?_none (d : StatDict) (k : String)
    (hnone : d.find? (fun p => decide (p.1 = k)) = none) :
    lookupCell d k = Cell.zero := by
  unfold lookupCell
  rw [hnone]

/-- `lookupCell` after `bumpCell`: the bumped key reads through `f`,
every other key is untouched. -/
theorem lookupCell_bumpCell (d : StatDict) (k k' : String) (f : Cell → Cell) :
    lookupCell (bumpCell d k f) k' =
      if k' = k then f (lookupCell d k) else lookupCell d k' := by
  unfold bumpCell
  by_cases hmem : d.any (fun p => p.1 = k)
  · simp only [hmem, if_true]
    by_cases hk : k' = k
    · subst hk
      rw [lookupCell_map_eq, if_pos rfl]
      have hsome : (d.find? (fun p => decide (p.1 = k'))).isSome := by
        rw [List.find?_isSome]
        rcases List.any_eq_true.mp hmem with ⟨p, hp, hpk⟩
        exact ⟨p, hp, hpk⟩
      cases hfind : d.find? (fun p => decide (p.1 = k')) with
      | some p =>
        unfold lookupCell
        rw [hfind]
      | none => rw [hfind] at hsome; simp at hsome
    · rw [lookupCell_map_ne d k k' f hk, if_neg hk]
  · simp only [hmem, Bool.false_eq_true, if_false]
    have hnone : d.find? (fun p => decide (p.1 = k)) = none := by
      rw [List.find?_eq_none]
      intro x hx
      simp only [decide_eq_true_eq]
      intro hcon
      rw [List.any_eq_true] at hmem
      exact hmem ⟨x, hx, by simpa using hcon⟩
    by_cases hk : k' = k
    · subst hk
      rw [lookupCell_append_single_self d k' (f Cell.zero) hnone, if_pos rfl,
        lookupCell_eq_zero_of_find?_none d k' hnone]
    · rw [lookupCell_append_single_ne d k k' (f Cell.zero) hk, if_neg hk]

def cellNeg (c : Cell) : Cell := ⟨-c.success, -c.failed, -c.total⟩

theorem statsOf_updateStats (t : PaymentTransaction) (s : ObserverState)
    (d : Dim) :
    statsOf (updateStats t s) d =
      bumpCell (statsOf s d) (keyOf d t) (cellAdd (isSuccessTx t)) := by
  cases d <;> rfl

theorem statsOf_removeFromStats (t : PaymentTransaction) (s : ObserverState)
    (d : Dim) :
    statsOf (removeFromStats t s) d =
      bumpCell (statsOf s d) (keyOf d t) (cellSub (isSuccessTx t)) := by
  cases d <;> rfl

theorem statsOf_setWindow (s : ObserverState) (w : List PaymentTransaction)
    (d : Dim) : statsOf { s with window := w } d = statsOf s d := by
  cases d <;> rfl

theorem window_updateStats (t : PaymentTransaction) (s : ObserverState) :
    (updateStats t s).window = s.window := rfl

theorem statsOf_trackLatency (t : PaymentTransaction) (s : ObserverState)
    (d : Dim) : statsOf (trackLatency t s) d = statsOf s d := by
  unfold trackLatency
  split <;> cases d <;> rfl

theorem window_trackLatency (t : PaymentTransaction) (s : ObserverState) :
    (trackLatency t s).window = s.window := by
  unfold trackLatency
  split <;> rfl

theorem statsOf_trackErrors (t : PaymentTransaction) (s : ObserverState)
    (d : Dim) : statsOf (trackErrors t s) d = statsOf s d := by
  unfold trackErrors
  cases t.error_code <;> cases t.error_message <;> split <;> cases d <;> rfl

theorem window_trackErrors (t : PaymentTransaction) (s : ObserverState) :
    (trackErrors t s).window = s.window := by
  unfold trackErrors
  cases t.error_code <;> cases t.error_message <;> split <;> rfl

theorem statsOf_trackRetries (t : PaymentTransaction) (s : ObserverState)
    (d : Dim) : statsOf (trackRetries t s) d = statsOf s d := by
  unfold trackRetries
  split
  · split <;> split <;> cases d <;> rfl
  · rfl

theorem window_trackRetries (t : PaymentTransaction) (s : ObserverState) :
    (trackRetries t s).window = s.window := by
  unfold trackRetries
  split
  · split <;> split <;> rfl
  · rfl

theorem cellPlus_zero_right (c : Cell) : cellPlus c Cell.zero = c := by
  simp [cellPlus, Cell.zero]

theorem windowCell_cons_ne (d : Dim) (k : String) (t : PaymentTransaction)
    (w : List PaymentTransaction) (h : ¬ keyOf d t = k) :
    windowCell d k (t :: w) = windowCell d k w := by
  rw [windowCell_cons]
  unfold txCell
  rw [if_neg h]
  simp [cellPlus, Cell.zero]

theorem cellSub_cancel (succ : Bool) (W B : Cell) :
    cellSub succ (cellPlus (cellPlus (if succ then ⟨1, 0, 1⟩ else ⟨0, 1, 1⟩) W) B) =
      cellPlus W B := by
  cases succ <;> simp [cellSub, cellPlus, Cell.mk.injEq] <;> try omega

theorem cellAdd_cancel (succ : Bool) (W : Cell) :
    cellAdd succ
        (cellPlus W (cellNeg (if succ then ⟨1, 0, 1⟩ else ⟨0, 1, 1⟩))) = W := by
  cases succ <;> simp [cellAdd, cellNeg, cellPlus, Cell.mk.injEq] <;> try omega

theorem cellPlus_cancel_neg (W u : Cell) :
    cellPlus (cellPlus W u) (cellNeg u) = W := by
  simp [cellPlus, cellNeg, Cell.mk.injEq]
  try omega

/-- Through an eviction pass, the per-key stats cells stay in lockstep
with the count over the (shrinking) window list, up to a constant
offset `base`. -/
theorem cleanupGo_stats (cutoff : Int) (base : Dim → String → Cell)
    (l : List PaymentTransaction) :
    ∀ s : ObserverState,
    (∀ d k, lookupCell (statsOf s d) k = cellPlus (windowCell d k l) (base d k)) →
    ∀ d k,
      lookupCell (statsOf (cleanupGo cutoff l s) d) k =
        cellPlus (windowCell d k (cleanupGo cutoff l s).window) (base d k) := by
  induction l with
  | nil =>
    intro s h d k
    show lookupCell (statsOf { s with window := [] } d) k = _
    rw [statsOf_setWindow]
    exact h d k
  | cons t rest ih =>
    intro s h d k
    have hstep : cleanupGo cutoff (t :: rest) s =
        if t.timestamp < cutoff then
          cleanupGo cutoff rest (removeFromStats t s)
        else { s with window := t :: rest } := rfl
    by_cases ht : t.timestamp < cutoff
    · rw [hstep, if_pos ht]
      apply ih (removeFromStats t s) ?_ d k
      intro d' k'
      rw [statsOf_removeFromStats, lookupCell_bumpCell]
      by_cases hk : k' = keyOf d' t
      · rw [if_pos hk, h d' (keyOf d' t), hk]
        rw [windowCell_cons]
        unfold txCell
        rw [if_pos rfl]
        exact cellSub_cancel (isSuccessTx t) _ _
      · rw [if_neg hk, h d' k',
          windowCell_cons_ne d' k' t rest (fun hcon => hk hcon.symm)]
    · rw [hstep, if_neg ht, statsOf_setWindow]
      exact h d k

/-- The core window/stats invariant: every stats cell equals the count
over the current window contents. -/
def obsInv (s : ObserverState) : Prop :=
  ∀ d k, lookupCell (statsOf s d) k = windowCell d k s.window

theorem obsInv_init : obsInv initObserver := by
  intro d k
  cases d <;> rfl

theorem obsInv_cleanup (cutoff : Int) (s : ObserverState) (h : obsInv s) :
    obsInv (cleanupOld cutoff s) := by
  intro d k
  unfold cleanupOld
  have := cleanupGo_stats cutoff (fun _ _ => Cell.zero) s.window s
    (fun d k => by rw [h d k, cellPlus_zero_right]) d k
  rw [this, cellPlus_zero_right]

theorem obsInv_ingest (now ws : Int) (t : PaymentTransaction)
    (s : ObserverState) (h : obsInv s) :
    obsInv (ingestTransaction now ws t s) := by
  have h1 : ∀ d k,
      lookupCell (statsOf { s with window := s.window ++ [t] } d) k =
        cellPlus (windowCell d k (s.window ++ [t]))
          (cellNeg (txCell d k t)) := by
    intro d k
    rw [statsOf_setWindow, h d k, windowCell_append]
    have hsingle : windowCell d k [t] = txCell d k t := by
      rw [windowCell_cons, windowCell_nil, cellPlus_zero_right]
    rw [hsingle, cellPlus_cancel_neg]
  have h2 := cleanupGo_stats (now - ws) (fun d k => cellNeg (txCell d k t))
    (s.window ++ [t]) { s with window := s.window ++ [t] } h1
  intro d k
  unfold ingestTransaction
  set s2 := cleanupOld (now - ws) { s with window := s.window ++ [t] } with hs2
  have h2' : ∀ d k,
      lookupCell (statsOf s2 d) k =
        cellPlus (windowCell d k s2.window) (cellNeg (txCell d k t)) := by
    intro d k
    exact h2 d k
  show lookupCell
    (statsOf (trackRetries t (trackErrors t (trackLatency t (updateStats t s2)))) d) k = _
  rw [statsOf_trackRetries, statsOf_trackErrors, statsOf_trackLatency,
    statsOf_updateStats, window_trackRetries, window_trackErrors,
    window_trackLatency, window_updateStats, lookupCell_bumpCell]
  by_cases hk : k = keyOf d t
  · rw [if_pos hk, h2' d (keyOf d t), hk]
    have : txCell d (keyOf d t) t = (if isSuccessTx t then ⟨1, 0, 1⟩ else ⟨0, 1, 1⟩) := by
      unfold txCell
      rw [if_pos rfl]
    rw [this]
    exact cellAdd_cancel (isSuccessTx t) _
  · rw [if_neg hk, h2' d k]
    have : txCell d k t = Cell.zero := by
      unfold txCell
      rw [if_neg (fun hcon => hk hcon.symm)]
    rw [this]
    show cellPlus _ (cellNeg Cell.zero) = _
    simp [cellNeg, Cell.zero, cellPlus]

theorem obsInv_step (st : ObsStep) (s : ObserverState) (h : obsInv s) :
    obsInv (obsStepApply st s) := by
  cases st with
  | ingest now ws t => exact obsInv_ingest now ws t s h
  | cleanup cutoff => exact obsInv_cleanup cutoff s h

theorem obsInv_run (steps : List ObsStep) : obsInv (obsRun steps) := by
  unfold obsRun
  have : ∀ s : ObserverState, obsInv s →
      obsInv (steps.foldl (fun s st => obsStepApply st s) s) := by
    induction steps with
    | nil => intro s h; exact h
    | cons st rest ih =>
      intro s h
      exact ih _ (obsInv_step st s h)
  exact this initObserver obsInv_init

theorem windowCell_props (d : Dim) (k : String) :
    ∀ w : List PaymentTransaction,
      (windowCell d k w).total = (windowCell d k w).success + (windowCell d k w).failed ∧
      0 ≤ (windowCell d k w).success ∧ 0 ≤ (windowCell d k w).failed := by
  intro w
  induction w with
  | nil => simp [windowCell, Cell.zero]
  | cons t rest ih =>
    rw [windowCell_cons]
    unfold txCell
    split <;> [skip; (simp [cellPlus, Cell.zero]; omega)]
    split <;> simp [cellPlus] <;> omega

/-- C1: for every stats dimension and every key, after any sequence of
transaction ingestions and window evictions, the counter cell satisfies
`total = success + failed` and all three counters are non-negative. -/
theorem C1_stats_counters_consistent (steps : List ObsStep) (d : Dim)
    (k : String) :
    (lookupCell (statsOf (obsRun steps) d) k).total =
      (lookupCell (statsOf (obsRun steps) d) k).success +
        (lookupCell (statsOf (obsRun steps) d) k).failed ∧
    0 ≤ (lookupCell (statsOf (obsRun steps) d) k).success ∧
    0 ≤ (lookupCell (statsOf (obsRun steps) d) k).failed ∧
    0 ≤ (lookupCell (statsOf (obsRun steps) d) k).total := by
  have hinv := obsInv_run steps d k
  rw [hinv]
  have hp := windowCell_props d k (obsRun steps).window
  refine ⟨hp.1, hp.2.1, hp.2.2, ?_⟩
  rw [hp.1]
  omega

theorem removeFromStats_frame (t : PaymentTransaction) (s : ObserverState) :
    (removeFromStats t s).error_codes = s.error_codes ∧
    (removeFromStats t s).error_messages = s.error_messages ∧
    (removeFromStats t s).retry_stats = s.retry_stats ∧
    (removeFromStats t s).latOverall = s.latOverall ∧
    (removeFromStats t s).latByIssuer = s.latByIssuer ∧
    (removeFromStats t s).latByMethod = s.latByMethod :=
  ⟨rfl, rfl, rfl, rfl, rfl, rfl⟩

theorem cleanupGo_frame (cutoff : Int) (l : List PaymentTransaction) :
    ∀ s : ObserverState,
    (cleanupGo cutoff l s).error_codes = s.error_codes ∧
    (cleanupGo cutoff l s).error_messages = s.error_messages ∧
    (cleanupGo cutoff l s).retry_stats = s.retry_stats ∧
    (cleanupGo cutoff l s).latOverall = s.latOverall ∧
    (cleanupGo cutoff l s).latByIssuer = s.latByIssuer ∧
    (cleanupGo cutoff l s).latByMethod = s.latByMethod := by
  induction l with
  | nil => intro s; exact ⟨rfl, rfl, rfl, rfl, rfl, rfl⟩
  | cons t rest ih =>
    intro s
    have hstep : cleanupGo cutoff (t :: rest) s =
        if t.timestamp < cutoff then
          cleanupGo cutoff rest (removeFromStats t s)
        else { s with window := t :: rest } := rfl
    by_cases ht : t.timestamp < cutoff
    · rw [hstep, if_pos ht]
      exact ih (removeFromStats t s)
    · rw [hstep, if_neg ht]
      exact ⟨rfl, rfl, rfl, rfl, rfl, rfl⟩

/-- C10: window eviction (`_cleanup_old_transactions`) touches only the
window and the per-dimension counters: the error-code and error-message
counts, the retry statistics and all latency rings are unchanged, and so
are the `get_top_errors`, `get_retry_efficiency` and `get_latency_stats`
readings derived from them. -/
theorem C10_eviction_frame (cutoff : Int) (s : ObserverState) (n : Nat)
    (issuer method : String) :
    (cleanupOld cutoff s).error_codes = s.error_codes ∧
    (cleanupOld cutoff s).error_messages = s.error_messages ∧
    (cleanupOld cutoff s).retry_stats = s.retry_stats ∧
    (cleanupOld cutoff s).latOverall = s.latOverall ∧
    (cleanupOld cutoff s).latByIssuer = s.latByIssuer ∧
    (cleanupOld cutoff s).latByMethod = s.latByMethod ∧
    getTopErrors (cleanupOld cutoff s) n = getTopErrors s n ∧
    getRetryEfficiency (cleanupOld cutoff s) = getRetryEfficiency s ∧
    getLatencyStatsOverall (cleanupOld cutoff s) = getLatencyStatsOverall s ∧
    getLatencyStatsByIssuer (cleanupOld cutoff s) issuer =
      getLatencyStatsByIssuer s issuer ∧
    getLatencyStatsByMethod (cleanupOld cutoff s) method =
      getLatencyStatsByMethod s method := by
  have hf := cleanupGo_frame cutoff s.window s
  obtain ⟨h1, h2, h3, h4, h5, h6⟩ := hf
  unfold cleanupOld at *
  refine ⟨h1, h2, h3, h4, h5, h6, ?_, ?_, ?_, ?_, ?_⟩
  · unfold getTopErrors
    rw [h1]
  · unfold getRetryEfficiency
    rw [h3]
  · unfold getLatencyStatsOverall
    rw [h4]
  · unfold getLatencyStatsByIssuer
    rw [h5]
  · unfold getLatencyStatsByMethod
    rw [h6]

/-! ### Key uniqueness of the stats dicts (needed to read per-entry
facts off the per-key invariant) -/

theorem bumpCell_map_fst (d : StatDict) (k : String) (f : Cell → Cell) :
    (bumpCell d k f).map Prod.fst =
      d.map Prod.fst ++ (if d.any (fun p => p.1 = k) then [] else [k]) := by
  unfold bumpCell
  by_cases hmem : d.any (fun p => p.1 = k)
  · rw [if_pos hmem, if_pos hmem, List.append_nil, List.map_map]
    congr 1
    funext p
    by_cases hk : p.1 = k
    · simp [hk]
    · simp [hk]
  · rw [if_neg hmem, if_neg hmem, List.map_append]
    rfl

theorem nodup_bumpCell (d : StatDict) (k : String) (f : Cell → Cell)
    (h : (d.map Prod.fst).Nodup) : ((bumpCell d k f).map Prod.fst).Nodup := by
  rw [bumpCell_map_fst]
  by_cases hmem : d.any (fun p => p.1 = k)
  · rw [if_pos hmem, List.append_nil]
    exact h
  · rw [if_neg hmem]
    rw [List.nodup_append]
    refine ⟨h, List.nodup_singleton k, ?_⟩
    intro x hx
    simp only [List.mem_singleton]
    intro hcon
    subst hcon
    rcases List.mem_map.mp hx with ⟨p, hp, hpk⟩
    rw [List.any_eq_true] at hmem
    exact hmem ⟨p, hp, by simpa using hpk⟩

/-- On a dict with unique keys, membership determines the lookup. -/
theorem lookupCell_of_mem_nodup (l : StatDict) (k : String) (c : Cell)
    (hnd : (l.map Prod.fst).Nodup) (hm : (k, c) ∈ l) :
    lookupCell l k = c := by
  induction l with
  | nil => cases hm
  | cons hd tl ih =>
    rcases List.mem_cons.mp hm with heq | htl
    · subst heq
      unfold lookupCell
      rw [List.find?_cons_of_pos _ (by simp)]
    · have hk : k ∈ tl.map Prod.fst :=
        List.mem_map.mpr ⟨(k, c), htl, rfl⟩
      have hnd' := hnd
      rw [List.map_cons, List.nodup_cons] at hnd'
      have hhd : ¬ hd.1 = k := fun hcon => hnd'.1 (hcon ▸ hk)
      unfold lookupCell at ih ⊢
      rw [List.find?_cons_of_neg _ (by simpa using hhd)]
      exact ih hnd'.2 htl

/-- Every stats dict keeps unique keys. -/
def obsKeysNodup (s : ObserverState) : Prop :=
  ∀ d, ((statsOf s d).map Prod.fst).Nodup

theorem obsKeysNodup_init : obsKeysNodup initObserver := by
  intro d
  cases d <;> exact List.nodup_nil

theorem obsKeysNodup_updateStats (t : PaymentTransaction) (s : ObserverState)
    (h : obsKeysNodup s) : obsKeysNodup (updateStats t s) := by
  intro d
  rw [statsOf_updateStats]
  exact nodup_bumpCell _ _ _ (h d)

theorem obsKeysNodup_removeFromStats (t : PaymentTransaction)
    (s : ObserverState) (h : obsKeysNodup s) :
    obsKeysNodup (removeFromStats t s) := by
  intro d
  rw [statsOf_removeFromStats]
  exact nodup_bumpCell _ _ _ (h d)

theorem obsKeysNodup_cleanupGo (cutoff : Int) (l : List PaymentTransaction) :
    ∀ s : ObserverState, obsKeysNodup s → obsKeysNodup (cleanupGo cutoff l s) := by
  induction l with
  | nil =>
    intro s h d
    show ((statsOf { s with window := [] } d).map Prod.fst).Nodup
    rw [statsOf_setWindow]
    exact h d
  | cons t rest ih =>
    intro s h
    have hstep : cleanupGo cutoff (t :: rest) s =
        if t.timestamp < cutoff then
          cleanupGo cutoff rest (removeFromStats t s)
        else { s with window := t :: rest } := rfl
    by_cases ht : t.timestamp < cutoff
    · rw [hstep, if_pos ht]
      exact ih _ (obsKeysNodup_removeFromStats t s h)
    · rw [hstep, if_neg ht]
      intro d
      rw [statsOf_setWindow]
      exact h d

theorem obsKeysNodup_step (st : ObsStep) (s : ObserverState)
    (h : obsKeysNodup s) : obsKeysNodup (obsStepApply st s) := by
  cases st with
  | ingest now ws t =>
    show obsKeysNodup (ingestTransaction now ws t s)
    unfold ingestTransaction
    intro d
    rw [statsOf_trackRetries, statsOf_trackErrors, statsOf_trackLatency]
    have h1 : obsKeysNodup { s with window := s.window ++ [t] } := by
      intro d'
      rw [statsOf_setWindow]
      exact h d'
    have h2 := obsKeysNodup_cleanupGo (now - ws) (s.window ++ [t]) _ h1
    rw [statsOf_updateStats]
    exact nodup_bumpCell _ _ _ (h2 d)
  | cleanup cutoff =>
    exact obsKeysNodup_cleanupGo cutoff s.window s h

theorem obsKeysNodup_run (steps : List ObsStep) : obsKeysNodup (obsRun steps) := by
  unfold obsRun
  have : ∀ s : ObserverState, obsKeysNodup s →
      obsKeysNodup (steps.foldl (fun s st => obsStepApply st s) s) := by
    induction steps with
    | nil => intro s h; exact h
    | cons st rest ih =>
      intro s h
      exact ih _ (obsKeysNodup_step st s h)
  exact this initObserver obsKeysNodup_init

theorem sortListBy_nil {α : Type} (le : α → α → Bool) :
    sortListBy le [] = [] := rfl

/-- In a reachable state whose window is empty, every materialised stats
entry is the zero cell. -/
theorem entry_zero_of_empty_window (steps : List ObsStep) (d : Dim)
    (hw : (obsRun steps).window = []) :
    ∀ p ∈ statsOf (obsRun steps) d, p.2 = Cell.zero := by
  intro p hp
  have h1 := lookupCell_of_mem_nodup (statsOf (obsRun steps) d) p.1 p.2
    (obsKeysNodup_run steps d) (by rw [Prod.mk.eta]; exact hp)
  have h2 := obsInv_run steps d p.1
  rw [hw, windowCell_nil] at h2
  rw [h1] at h2
  exact h2

/-- C8 (amended): with an empty window the overall success rate reads
1.0; when additionally the latency ring and error counts are empty (as
before any ingestion) the latency statistics are all zero and `analyze`
emits no patterns, for any baselines with non-negative latency
baseline. -/
theorem C8_empty_window (steps : List ObsStep) (conf : Int → ℚ → ℚ)
    (b : Baselines) (hw : (obsRun steps).window = [])
    (hlat : (obsRun steps).latOverall = [])
    (herr : (obsRun steps).error_codes = [])
    (hb : 0 ≤ b.avg_latency) :
    getSuccessRate (obsRun steps) Dim.overall "current" = 1 ∧
    getLatencyStatsOverall (obsRun steps) = ⟨0, 0, 0, 0, 0⟩ ∧
    analyze conf b (obsRun steps) = [] := by
  have hc : lookupCell (statsOf (obsRun steps) Dim.overall) "current" = Cell.zero := by
    rw [obsInv_run steps Dim.overall "current", hw, windowCell_nil]
  have hrate : getSuccessRate (obsRun steps) Dim.overall "current" = 1 := by
    unfold getSuccessRate
    rw [hc]
    rfl
  have hlz : getLatencyStatsOverall (obsRun steps) = ⟨0, 0, 0, 0, 0⟩ := by
    unfold getLatencyStatsOverall
    rw [hlat]
    rfl
  refine ⟨hrate, hlz, ?_⟩
  have htot : getTransactionVolume (obsRun steps) Dim.overall "current" = 0 := by
    unfold getTransactionVolume
    rw [hc]
    rfl
  have hih : getIssuerHealth (obsRun steps) = [] := by
    unfold getIssuerHealth
    rw [List.filterMap_eq_nil_iff]
    intro p hp
    have hz := entry_zero_of_empty_window steps Dim.byIssuer hw p hp
    simp [hz, Cell.zero]
  have hmp : getMethodPerformance (obsRun steps) = [] := by
    unfold getMethodPerformance
    rw [List.filterMap_eq_nil_iff]
    intro p hp
    have hz := entry_zero_of_empty_window steps Dim.byMethod hw p hp
    simp [hz, Cell.zero]
  have hdeg : detectIssuerDegradation conf b (obsRun steps) = [] := by
    unfold detectIssuerDegradation
    rw [hih]
    rfl
  have hfat : detectMethodFatigue conf b (obsRun steps) = [] := by
    unfold detectMethodFatigue
    rw [hmp]
    rfl
  have hstorm : detectRetryStorms conf (obsRun steps) = [] := by
    unfold detectRetryStorms
    rw [htot]
    rfl
  have hspike : detectLatencySpikes b (obsRun steps) = [] := by
    unfold detectLatencySpikes
    rw [hlz]
    have hcond : ¬ b.avg_latency * (3/2) < (0 : ℚ) := by
      intro hcon
      nlinarith
    rw [if_neg ?_]
    show ¬ b.avg_latency * (3/2) < (⟨0, 0, 0, 0, 0⟩ : LatencyStats).p95
    exact hcond
  have hclus : detectErrorClusters conf (obsRun steps) = [] := by
    unfold detectErrorClusters
    unfold getTopErrors
    rw [herr, sortListBy_nil]
    rfl
  have hgeo : detectGeographicIssues conf (obsRun steps) = [] := by
    unfold detectGeographicIssues
    rw [List.filterMap_eq_nil_iff]
    intro p hp
    have hz := entry_zero_of_empty_window steps Dim.byRegion hw p hp
    simp [hz, Cell.zero]
  unfold analyze
  rw [hdeg, hstorm, hfat, hspike, hclus, hgeo]
  rfl

theorem C8_empty_window_witness :
    getSuccessRate (obsRun []) Dim.overall "current" = 1 ∧
    getLatencyStatsOverall (obsRun []) = ⟨0, 0, 0, 0, 0⟩ ∧
    analyze (fun _ _ => 0) defaultBaselines (obsRun []) = [] :=
  C8_empty_window [] (fun _ _ => 0) defaultBaselines rfl rfl rfl
    (by norm_num [defaultBaselines])

theorem percentile_singleton (x q : ℚ) : percentile [x] q = x := by
  unfold percentile
  have hs : sortListBy (fun a b => decide (a ≤ b)) [x] = [x] := rfl
  rw [hs]
  have hpos : q / 100 * (((List.length [x] : ℕ) : ℚ) - 1) = 0 := by
    norm_num
  simp only [List.length_cons, List.length_nil] at hpos ⊢
  rw [hpos]
  norm_num
  rw [show Rat.floor 0 = 0 from rfl]
  norm_num

theorem insertSorted_length {α : Type} (le : α → α → Bool) (x : α) :
    ∀ l : List α, (insertSorted le x l).length = l.length + 1 := by
  intro l
  induction l with
  | nil => rfl
  | cons y ys ih =>
    unfold insertSorted
    by_cases h : le x y
    · rw [if_pos h]
      rfl
    · rw [if_neg h]
      simp [ih]

theorem sortListBy_length {α : Type} (le : α → α → Bool) (l : List α) :
    (sortListBy le l).length = l.length := by
  induction l with
  | nil => rfl
  | cons y ys ih =>
    unfold sortListBy at ih ⊢
    rw [List.foldr_cons, insertSorted_length, ih, List.length_cons]

/-- A failed, slow transaction ingested at time 0 and then evicted. -/
def c8tx : PaymentTransaction :=
  { transaction_id := "t1", timestamp := 0, payment_method := "upi",
    issuer := "HDFC", merchant_id := "m1", status := PaymentStatus.failed,
    error_code := some ("E1"), latency_ms := 2000 }

def c8run : List ObsStep := [ObsStep.ingest 0 10 c8tx, ObsStep.cleanup 100]

/-- C8 is false as stated: after the single transaction above leaves the
window, the window holds 0 transactions yet the latency statistics are
not all zero (the latency ring survives eviction), and `analyze` emits a
latency-spike pattern. -/
theorem C8_counterexample :
    (obsRun c8run).window = [] ∧
    getLatencyStatsOverall (obsRun c8run) ≠ ⟨0, 0, 0, 0, 0⟩ ∧
    analyze (fun _ _ => 0) defaultBaselines (obsRun c8run) ≠ [] := by
  have hlat : (obsRun c8run).latOverall = [2000] := by decide
  have hstats : getLatencyStatsOverall (obsRun c8run) =
      ⟨2000, 2000, 2000, 2000, 2000⟩ := by
    unfold getLatencyStatsOverall
    rw [hlat]
    unfold latencyStatsOfList
    rw [if_neg (by simp)]
    rw [percentile_singleton, percentile_singleton, percentile_singleton]
    norm_num
  refine ⟨by decide, ?_, ?_⟩
  · rw [hstats]
    intro hcon
    have := congrArg LatencyStats.p50 hcon
    norm_num at this
  · have hspike : (detectLatencySpikes defaultBaselines (obsRun c8run)).length = 1 := by
      unfold detectLatencySpikes
      rw [hstats]
      rw [if_pos (by norm_num [defaultBaselines])]
      rfl
    intro hcon
    have hlen := congrArg List.length hcon
    rw [List.length_nil] at hlen
    unfold analyze at hlen
    rw [sortListBy_length] at hlen
    simp only [List.length_append, hspike] at hlen
    omega

/-- C3: `can_take_action` blocks exactly when the hourly cap, the
rollback cap, or the high-risk rollback cap trips; when only the
high-risk rule trips, the reason is the exact source string; at
`rollbacks_last_hour = 3` every high- or critical-risk action is
blocked. -/
theorem C3_can_take_action (a : AgentAction) (s : AgentState) :
    ((canTakeAction s a).1 = false ↔
      (50 ≤ s.actions_taken_last_hour ∨ 10 ≤ s.rollbacks_last_hour ∨
        ((a.risk_level = RiskLevel.high ∨ a.risk_level = RiskLevel.critical) ∧
          3 ≤ s.rollbacks_last_hour))) ∧
    ((a.risk_level = RiskLevel.high ∨ a.risk_level = RiskLevel.critical) →
      3 ≤ s.rollbacks_last_hour →
      s.actions_taken_last_hour < 50 →
      s.rollbacks_last_hour < 10 →
      (canTakeAction s a).2 = "High-risk action blocked due to recent rollbacks") ∧
    (s.rollbacks_last_hour = 3 →
      (a.risk_level = RiskLevel.high ∨ a.risk_level = RiskLevel.critical) →
      (canTakeAction s a).1 = false) := by
  unfold canTakeAction
  split_ifs with h1 h2 h3
  · refine ⟨?_, ?_, ?_⟩ <;> simp_all <;> omega
  · refine ⟨?_, ?_, ?_⟩ <;> simp_all <;> omega
  · exact ⟨⟨fun _ => Or.inr (Or.inr h3), fun _ => rfl⟩,
      fun _ _ _ _ => rfl, fun _ _ => rfl⟩
  · refine ⟨?_, fun hr h3r h50 h10 => ?_, fun hr3 hr => ?_⟩
    · constructor
      · intro hcon
        simp at hcon
      · intro hcon
        rcases hcon with hc | hc | hc
        · exact absurd hc h1
        · exact absurd hc h2
        · exact absurd hc h3
    · exact absurd ⟨hr, h3r⟩ h3
    · exact absurd ⟨hr, by omega⟩ h3

def c3action : AgentAction :=
  { action_id := "a3", action_type := ActionType.circuit_breaker,
    target := "HDFC", parameters := {}, risk_level := RiskLevel.high,
    authorization_level := AuthorizationLevel.semi_automatic }

def c3state : AgentState := { rollbacks_last_hour := 3 }

theorem C3_can_take_action_witness :
    (canTakeAction c3state c3action).1 = false ∧
    (canTakeAction c3state c3action).2 =
      "High-risk action blocked due to recent rollbacks" :=
  ⟨(C3_can_take_action c3action c3state).2.2 rfl (Or.inl rfl),
   (C3_can_take_action c3action c3state).2.1 (Or.inl rfl)
     (by norm_num [c3state]) (by norm_num [c3state]) (by norm_num [c3state])⟩

/-! ### C4: the executor's gate has no concurrency cap -/

def c4mk (idStr target : String) (ty : ActionType) : AgentAction :=
  { action_id := idStr, action_type := ty, target := target,
    parameters := { issuer := some ("X"), payment_method := some ("upi") },
    risk_level := RiskLevel.low,
    authorization_level := AuthorizationLevel.automatic,
    executed_at := some 0, status := "executed" }

/-- Five concurrently active interventions with pairwise distinct
`(action_type, target)`. -/
def c4ex : ExecutorState :=
  { execution_log := [],
    active_interventions :=
      [("i1", c4mk "i1" "T1" ActionType.adjust_retry),
       ("i2", c4mk "i2" "T2" ActionType.circuit_breaker),
       ("i3", c4mk "i3" "T3" ActionType.route_change),
       ("i4", c4mk "i4" "T4" ActionType.method_suppress),
       ("i5", c4mk "i5" "T5" ActionType.alert_ops)] }

def c4act : AgentAction :=
  { action_id := "i6", action_type := ActionType.adjust_retry,
    target := "T9", parameters := { max_retries := some 2 },
    risk_level := RiskLevel.low,
    authorization_level := AuthorizationLevel.automatic }

def c4st : AgentState := {}

def c4base : Metrics := ⟨1, 200, 0, 0⟩

/-- C4 fails on the code: with five interventions already active, a
fresh action with a distinct `(action_type, target)` passes
`can_take_action` and `_pre_execution_checks` and executes —
neither gate counts the active interventions. -/
theorem C4_no_concurrency_cap :
    c4ex.active_interventions.length = 5 ∧
    (canTakeAction c4st c4act).1 = true ∧
    (preExecutionChecks c4ex c4st c4act).1 = true ∧
    (execute 0 c4base c4act c4st c4ex).1 = true := by
  refine ⟨rfl, rfl, by decide, by decide⟩

/-! ### C5: circuit-breaker execute/rollback round trip -/

/-- C5 (amended): executing a `circuit_breaker` whose issuer is not
already tripped and then rolling it back restores
`active_circuit_breakers` exactly. -/
theorem C5_circuit_breaker_roundtrip (now now' : ℚ) (baseline : Metrics)
    (a : AgentAction) (st : AgentState) (ex : ExecutorState) (i : String)
    (htype : a.action_type = ActionType.circuit_breaker)
    (hiss : a.parameters.issuer = some i)
    (hi : i ∉ st.active_circuit_breakers)
    (hok : (execute now baseline a st ex).1 = true) :
    (rollbackAction now' (execute now baseline a st ex).2.2.1
        (execute now baseline a st ex).2.2.2.1
        (execute now baseline a st ex).2.2.2.2).2.2.1.active_circuit_breakers
      = st.active_circuit_breakers := by
  by_cases hpre : (preExecutionChecks ex st a).1 = true
  · by_cases hie : i = ""
    · exfalso
      have hexec : execute now baseline a st ex =
          (false, "No issuer specified", { a with status := "failed" }, st, ex) := by
        unfold execute
        rcases hp : preExecutionChecks ex st a with ⟨b, reason⟩
        cases b
        · rw [hp] at hpre
          simp at hpre
        · have hbt : executeByType now a st = (false, "No issuer specified", st) := by
            unfold executeByType
            rw [htype, hiss, hie]
            rfl
          simp [hbt]
      rw [hexec] at hok
      simp at hok
    · have hbt : executeByType now a st =
          (true, "Circuit breaker activated for " ++ i,
           { st with active_circuit_breakers := insert i st.active_circuit_breakers }) := by
        unfold executeByType
        rw [htype, hiss]
        simp [hie]
      have hexec : execute now baseline a st ex =
          (true, "Circuit breaker activated for " ++ i,
           { a with status := "executed", executed_at := some now },
           { st with
              active_circuit_breakers := insert i st.active_circuit_breakers,
              actions_taken_last_hour := st.actions_taken_last_hour + 1,
              actions_executed := st.actions_executed + 1 },
           { execution_log := ex.execution_log ++ [⟨a.action_id, baseline⟩]
             active_interventions :=
               dictSet ex.active_interventions a.action_id
                 { a with status := "executed", executed_at := some now } }) := by
        unfold execute
        rcases hp : preExecutionChecks ex st a with ⟨b, reason⟩
        cases b
        · rw [hp] at hpre
          simp at hpre
        · simp [hbt]
      rw [hexec]
      unfold rollbackAction
      simp only [htype, hiss]
      show (Finset.erase (insert i st.active_circuit_breakers) i) =
        st.active_circuit_breakers
      exact Finset.erase_insert hi
  · exfalso
    have hexec : (execute now baseline a st ex).1 = false := by
      unfold execute
      rcases hp : preExecutionChecks ex st a with ⟨b, reason⟩
      cases b
      · rfl
      · rw [hp] at hpre
        simp at hpre
    rw [hexec] at hok
    simp at hok

def c5base : Metrics := ⟨1, 200, 0, 0⟩

def c5wact : AgentAction :=
  { action_id := "cb1", action_type := ActionType.circuit_breaker,
    target := "HDFC",
    parameters := { issuer := some ("HDFC"), duration_minutes := some 10 },
    risk_level := RiskLevel.medium,
    authorization_level := AuthorizationLevel.automatic }

theorem C5_circuit_breaker_roundtrip_witness :
    (rollbackAction 1 (execute 0 c5base c5wact {} initExecutor).2.2.1
        (execute 0 c5base c5wact {} initExecutor).2.2.2.1
        (execute 0 c5base c5wact {} initExecutor).2.2.2.2).2.2.1.active_circuit_breakers
      = ({} : AgentState).active_circuit_breakers :=
  C5_circuit_breaker_roundtrip 0 1 c5base c5wact {} initExecutor "HDFC"
    rfl rfl (by decide) (by decide)

def c5cst : AgentState := { active_circuit_breakers := {"ICICI"} }

def c5cact : AgentAction :=
  { action_id := "cb2", action_type := ActionType.circuit_breaker,
    target := "ICICI",
    parameters := { issuer := some ("ICICI"), duration_minutes := some 10 },
    risk_level := RiskLevel.medium,
    authorization_level := AuthorizationLevel.automatic }

/-- C5 is false as stated for every starting state: if the issuer is
already in `active_circuit_breakers` before execution, the execute
(a no-op set add) followed by rollback (`discard`) empties the set
instead of restoring it. -/
theorem C5_counterexample :
    (execute 0 c5base c5cact c5cst initExecutor).1 = true ∧
    ¬ (rollbackAction 1 (execute 0 c5base c5cact c5cst initExecutor).2.2.1
        (execute 0 c5base c5cact c5cst initExecutor).2.2.2.1
        (execute 0 c5base c5cact c5cst initExecutor).2.2.2.2).2.2.1.active_circuit_breakers
      = c5cst.active_circuit_breakers := by
  constructor
  · decide
  · decide

/-! ### C2: monitor-and-rollback triggers and effects -/

theorem rollbackAction_fst (now : ℚ) (a : AgentAction) (st : AgentState)
    (ex : ExecutorState) : (rollbackAction now a st ex).1 = true := rfl

/-- `_should_rollback` fires exactly on the disjunction of the three
wired triggers. -/
theorem shouldRollback_iff (fmt : ℚ → String) (now t : ℚ) (a : AgentAction)
    (baseline current : Metrics) (hexec : a.executed_at = some t) :
    ((shouldRollback fmt now a baseline current).1 = true ↔
      (successRateDropThresh < baseline.success_rate - current.success_rate ∨
        (0 < baseline.avg_latency ∧
          latencyIncreaseThresh <
            (current.avg_latency - baseline.avg_latency) / baseline.avg_latency) ∨
        (a.parameters.duration_minutes).getD 30 < now - t)) := by
  unfold shouldRollback
  rw [hexec]
  by_cases h1 : successRateDropThresh < baseline.success_rate - current.success_rate
  · rw [if_pos h1]
    simp [h1]
  · rw [if_neg h1]
    by_cases h2 : 0 < baseline.avg_latency ∧
        latencyIncreaseThresh <
          (current.avg_latency - baseline.avg_latency) / baseline.avg_latency
    · rw [if_pos h2]
      simp [h1, h2]
    · rw [if_neg h2]
      by_cases h3 : (a.parameters.duration_minutes).getD 30 < now - t
      · simp [h1, h2, h3]
      · simp [h1, h2, h3]

/-- One pass of `monitor_and_rollback` over a single active
intervention whose baseline is found in the log. -/
theorem monitor_single (fmt : ℚ → String) (now : ℚ) (current : Metrics)
    (st : AgentState) (ex : ExecutorState) (id : String) (a : AgentAction)
    (baseline : Metrics)
    (hact : ex.active_interventions = [(id, a)])
    (hfind : findBaselineForAction ex.execution_log id = some baseline) :
    monitorAndRollback fmt now current st ex =
      if (shouldRollback fmt now a baseline current).1 then
        ([id],
         { (rollbackAction now a st ex).2.2.1 with
            rollbacks_last_hour :=
              (rollbackAction now a st ex).2.2.1.rollbacks_last_hour + 1 },
         (rollbackAction now a st ex).2.2.2)
      else ([], st, ex) := by
  unfold monitorAndRollback
  rw [hact]
  by_cases hsr : (shouldRollback fmt now a baseline current).1 = true
  · simp only [monitorGo, hfind, hsr, rollbackAction_fst, if_true]
  · simp only [monitorGo, hfind]
    rw [if_neg (by simpa using hsr), if_neg (by simpa using hsr)]

/-- C2: over an active circuit-breaker intervention with a logged
baseline, `monitor_and_rollback` rolls back exactly when the success
rate dropped more than 0.05, or latency grew more than 50% over a
positive baseline, or the execution duration exceeded
`duration_minutes` (default 30); on rollback the issuer leaves the
breaker set, the intervention leaves the active set, its status becomes
"rolled_back", and `rollbacks_last_hour` grows by one; a
success-rate-triggered rollback reports the reason
"Success rate dropped " followed by the formatted drop. -/
theorem C2_monitor_and_rollback (fmt : ℚ → String) (now t : ℚ)
    (current baseline : Metrics) (a : AgentAction) (st : AgentState)
    (ex : ExecutorState) (id i : String)
    (hact : ex.active_interventions = [(id, a)])
    (hid : a.action_id = id)
    (hfind : findBaselineForAction ex.execution_log id = some baseline)
    (htype : a.action_type = ActionType.circuit_breaker)
    (hiss : a.parameters.issuer = some i)
    (hexec : a.executed_at = some t) :
    ((monitorAndRollback fmt now current st ex).1 = [id] ↔
      (successRateDropThresh < baseline.success_rate - current.success_rate ∨
        (0 < baseline.avg_latency ∧
          latencyIncreaseThresh <
            (current.avg_latency - baseline.avg_latency) / baseline.avg_latency) ∨
        (a.parameters.duration_minutes).getD 30 < now - t)) ∧
    ((successRateDropThresh < baseline.success_rate - current.success_rate ∨
        (0 < baseline.avg_latency ∧
          latencyIncreaseThresh <
            (current.avg_latency - baseline.avg_latency) / baseline.avg_latency) ∨
        (a.parameters.duration_minutes).getD 30 < now - t) →
      ((monitorAndRollback fmt now current st ex).2.1.active_circuit_breakers =
          st.active_circuit_breakers.erase i ∧
        (monitorAndRollback fmt now current st ex).2.1.rollbacks_last_hour =
          st.rollbacks_last_hour + 1 ∧
        (monitorAndRollback fmt now current st ex).2.2.active_interventions = [] ∧
        (rollbackAction now a st ex).2.1.status = "rolled_back" ∧
        (rollbackAction now a st ex).2.1.completed_at = some now)) ∧
    (¬ (successRateDropThresh < baseline.success_rate - current.success_rate ∨
        (0 < baseline.avg_latency ∧
          latencyIncreaseThresh <
            (current.avg_latency - baseline.avg_latency) / baseline.avg_latency) ∨
        (a.parameters.duration_minutes).getD 30 < now - t) →
      monitorAndRollback fmt now current st ex = ([], st, ex)) ∧
    (successRateDropThresh < baseline.success_rate - current.success_rate →
      (shouldRollback fmt now a baseline current).2 =
        "Success rate dropped " ++
          fmt (baseline.success_rate - current.success_rate)) := by
  have hms := monitor_single fmt now current st ex id a baseline hact hfind
  have hiff := shouldRollback_iff fmt now t a baseline current hexec
  have hrbst : (rollbackAction now a st ex).2.2.1 =
      { st with active_circuit_breakers := st.active_circuit_breakers.erase i } := by
    unfold rollbackAction
    simp only [htype, hiss]
  have hrbex : (rollbackAction now a st ex).2.2.2.active_interventions = [] := by
    unfold rollbackAction
    simp [hact, hid]
  refine ⟨?_, ?_, ?_, ?_⟩
  · by_cases hsr : (shouldRollback fmt now a baseline current).1 = true
    · rw [hms, if_pos hsr]
      simp [hiff.mp hsr]
    · rw [hms, if_neg (by simpa using hsr)]
      constructor
      · intro hcon
        exact absurd hcon (by simp)
      · intro htr
        exact absurd (hiff.mpr htr) hsr
  · intro htrig
    have hsr := hiff.mpr htrig
    rw [hms, if_pos hsr]
    refine ⟨?_, ?_, ?_, rfl, rfl⟩
    · show ({ (rollbackAction now a st ex).2.2.1 with
         rollbacks_last_hour :=
           (rollbackAction now a st ex).2.2.1.rollbacks_last_hour + 1 } :
         AgentState).active_circuit_breakers = _
      rw [hrbst]
    · show ({ (rollbackAction now a st ex).2.2.1 with
         rollbacks_last_hour :=
           (rollbackAction now a st ex).2.2.1.rollbacks_last_hour + 1 } :
         AgentState).rollbacks_last_hour = _
      rw [hrbst]
    · exact hrbex
  · intro hntrig
    have hsr : ¬ (shouldRollback fmt now a baseline current).1 = true :=
      fun hcon => hntrig (hiff.mp hcon)
    rw [hms, if_neg (by simpa using hsr)]
  · intro h1
    unfold shouldRollback
    rw [if_pos h1]

def c2act : AgentAction :=
  { action_id := "act1", action_type := ActionType.circuit_breaker,
    target := "ICICI", parameters := { issuer := some ("ICICI") },
    risk_level := RiskLevel.medium,
    authorization_level := AuthorizationLevel.automatic,
    executed_at := some 0, status := "executed" }

def c2baseline : Metrics := ⟨95/100, 200, 100, 0⟩

def c2current : Metrics := ⟨85/100, 200, 100, 5⟩

def c2st : AgentState := { active_circuit_breakers := {"ICICI"} }

def c2ex : ExecutorState :=
  { execution_log := [⟨"act1", c2baseline⟩],
    active_interventions := [("act1", c2act)] }

theorem C2_monitor_and_rollback_witness :
    (monitorAndRollback (fun _ => "10%") 5 c2current c2st c2ex).1 = ["act1"] ∧
    (monitorAndRollback (fun _ => "10%") 5 c2current c2st c2ex).2.1.active_circuit_breakers =
      c2st.active_circuit_breakers.erase "ICICI" ∧
    (monitorAndRollback (fun _ => "10%") 5 c2current c2st c2ex).2.1.rollbacks_last_hour =
      c2st.rollbacks_last_hour + 1 := by
  have h := C2_monitor_and_rollback (fun _ => "10%") 5 0 c2current c2baseline
    c2act c2st c2ex "act1" "ICICI" rfl rfl rfl rfl rfl rfl
  have htrig : successRateDropThresh <
      c2baseline.success_rate - c2current.success_rate ∨
      (0 < c2baseline.avg_latency ∧
        latencyIncreaseThresh <
          (c2current.avg_latency - c2baseline.avg_latency) / c2baseline.avg_latency) ∨
      (c2act.parameters.duration_minutes).getD 30 < 5 - 0 :=
    Or.inl (by norm_num [c2baseline, c2current, successRateDropThresh])
  exact ⟨h.1.mpr htrig, (h.2.1 htrig).1, (h.2.1 htrig).2.1⟩

/-! ### C9: no two active interventions share `(action_type, target)` -/

/-- Two intervention entries do not clash on `(action_type, target)`. -/
def noClash (p q : String × AgentAction) : Prop :=
  ¬ (p.2.action_type = q.2.action_type ∧ p.2.target = q.2.target)

/-- Executor well-formedness: pairwise distinct `(action_type, target)`
and unique dict keys. -/
def exInv (ex : ExecutorState) : Prop :=
  ex.active_interventions.Pairwise noClash ∧
  (ex.active_interventions.map Prod.fst).Nodup

theorem exInv_init : exInv initExecutor :=
  ⟨List.Pairwise.nil, List.nodup_nil⟩

theorem dictSet_map_fst {α : Type} (l : List (String × α)) (k : String)
    (v : α) :
    (dictSet l k v).map Prod.fst =
      l.map Prod.fst ++ (if l.any (fun p => p.1 = k) then [] else [k]) := by
  unfold dictSet
  by_cases hmem : l.any (fun p => p.1 = k)
  · rw [if_pos hmem, if_pos hmem, List.append_nil, List.map_map]
    congr 1
    funext p
    by_cases hk : p.1 = k
    · simp [hk]
    · simp [hk]
  · rw [if_neg hmem, if_neg hmem, List.map_append]
    rfl

theorem nodup_dictSet {α : Type} (l : List (String × α)) (k : String) (v : α)
    (h : (l.map Prod.fst).Nodup) : ((dictSet l k v).map Prod.fst).Nodup := by
  rw [dictSet_map_fst]
  by_cases hmem : l.any (fun p => p.1 = k)
  · rw [if_pos hmem, List.append_nil]
    exact h
  · rw [if_neg hmem, List.nodup_append]
    refine ⟨h, List.nodup_singleton k, ?_⟩
    intro x hx
    simp only [List.mem_singleton]
    intro hcon
    subst hcon
    rcases List.mem_map.mp hx with ⟨p, hp, hpk⟩
    rw [List.any_eq_true] at hmem
    exact hmem ⟨p, hp, by simpa using hpk⟩

theorem pairwise_mapReplace (l : List (String × AgentAction)) (k : String)
    (v : AgentAction)
    (hnd : (l.map Prod.fst).Nodup)
    (hall : ∀ p ∈ l, ¬ (p.2.action_type = v.action_type ∧ p.2.target = v.target))
    (hp : l.Pairwise noClash) :
    (l.map (fun p => if p.1 = k then (p.1, v) else p)).Pairwise noClash := by
  induction l with
  | nil => exact List.Pairwise.nil
  | cons hd tl ih =>
    rw [List.map_cons] at hnd ⊢
    rw [List.nodup_cons] at hnd
    rw [List.pairwise_cons] at hp
    rw [List.pairwise_cons]
    constructor
    · intro q' hq'
      rcases List.mem_map.mp hq' with ⟨q, hq, hfq⟩
      by_cases hhd : hd.1 = k
      · rw [if_pos hhd]
        have hqk : ¬ q.1 = k := by
          intro hcon
          exact hnd.1 (hhd ▸ hcon ▸ List.mem_map.mpr ⟨q, hq, rfl⟩)
        rw [if_neg hqk] at hfq
        subst hfq
        intro hcon
        exact hall q (List.mem_cons_of_mem hd hq) ⟨hcon.1.symm, hcon.2.symm⟩
      · rw [if_neg hhd]
        by_cases hqk : q.1 = k
        · rw [if_pos hqk] at hfq
          subst hfq
          intro hcon
          exact hall hd (List.mem_cons_self hd tl) hcon
        · rw [if_neg hqk] at hfq
          subst hfq
          exact hp.1 q hq
    · exact ih hnd.2 (fun p hp' => hall p (List.mem_cons_of_mem hd hp')) hp.2

theorem pairwise_dictSet (l : List (String × AgentAction)) (k : String)
    (v : AgentAction)
    (hnd : (l.map Prod.fst).Nodup)
    (hall : ∀ p ∈ l, ¬ (p.2.action_type = v.action_type ∧ p.2.target = v.target))
    (hp : l.Pairwise noClash) :
    (dictSet l k v).Pairwise noClash := by
  unfold dictSet
  by_cases hmem : l.any (fun p => p.1 = k)
  · rw [if_pos hmem]
    exact pairwise_mapReplace l k v hnd hall hp
  · rw [if_neg hmem]
    rw [List.pairwise_append]
    refine ⟨hp, List.pairwise_singleton _ _, ?_⟩
    intro p hp' q hq
    rw [List.mem_singleton] at hq
    subst hq
    intro hcon
    exact hall p hp' hcon

/-- A passing pre-execution check means no active intervention clashes
with the incoming action. -/
theorem preChecks_true_no_clash (ex : ExecutorState) (st : AgentState)
    (a : AgentAction) (h : (preExecutionChecks ex st a).1 = true) :
    ∀ p ∈ ex.active_interventions,
      ¬ (p.2.action_type = a.action_type ∧ p.2.target = a.target) := by
  unfold preExecutionChecks at h
  split_ifs at h with h1 h2
  rcases hct : canTakeAction st a with ⟨b, reason⟩
  rw [hct] at h
  cases b
  · simp at h
  · cases hf : List.find? (fun p =>
        decide (p.2.action_type = a.action_type ∧ p.2.target = a.target))
        ex.active_interventions with
    | some p =>
      rw [hf] at h
      simp at h
    | none =>
      rw [List.find?_eq_none] at hf
      intro p hp
      have := hf p hp
      simpa using this

/-- The executor state after `execute`: unchanged, or (on success after
passing checks) log-appended with the new action inserted. -/
theorem execute_ex_cases (now : ℚ) (b : Metrics) (a : AgentAction)
    (st : AgentState) (ex : ExecutorState) :
    (execute now b a st ex).2.2.2.2 = ex ∨
    ((preExecutionChecks ex st a).1 = true ∧
      (execute now b a st ex).2.2.2.2 =
        { execution_log := ex.execution_log ++ [⟨a.action_id, b⟩]
          active_interventions := dictSet ex.active_interventions a.action_id
            { a with status := "executed", executed_at := some now } }) := by
  unfold execute
  rcases hp : preExecutionChecks ex st a with ⟨ok, reason⟩
  cases ok
  · exact Or.inl rfl
  · by_cases hok : (executeByType now a st).1 = true
    · right
      refine ⟨rfl, ?_⟩
      simp [hok]
    · left
      simp [hok]

theorem exInv_execute (now : ℚ) (b : Metrics) (a : AgentAction)
    (st : AgentState) (ex : ExecutorState) (h : exInv ex) :
    exInv (execute now b a st ex).2.2.2.2 := by
  rcases execute_ex_cases now b a st ex with heq | ⟨hpre, heq⟩
  · rw [heq]
    exact h
  · rw [heq]
    have hall := preChecks_true_no_clash ex st a hpre
    constructor
    · exact pairwise_dictSet _ _ _ h.2 (fun p hp => hall p hp) h.1
    · exact nodup_dictSet _ _ _ h.2

theorem exInv_rollbackAction (now : ℚ) (a : AgentAction) (st : AgentState)
    (ex : ExecutorState) (h : exInv ex) :
    exInv (rollbackAction now a st ex).2.2.2 := by
  unfold rollbackAction
  constructor
  · exact List.Pairwise.filter _ h.1
  · exact List.Nodup.sublist
      (List.Sublist.map Prod.fst (List.filter_sublist _)) h.2

theorem exInv_monitorGo (fmt : ℚ → String) (now : ℚ) (current : Metrics)
    (l : List (String × AgentAction)) :
    ∀ (st : AgentState) (ex : ExecutorState), exInv ex →
      exInv (monitorGo fmt now current l st ex).2.2 := by
  induction l with
  | nil => intro st ex h; exact h
  | cons hd rest ih =>
    intro st ex h
    rcases hd with ⟨id, a⟩
    cases hfb : findBaselineForAction ex.execution_log id with
    | none =>
      simp only [monitorGo, hfb]
      exact ih st ex h
    | some baseline =>
      simp only [monitorGo, hfb]
      by_cases hsr : (shouldRollback fmt now a baseline current).1 = true
      · simp only [hsr, if_true, rollbackAction_fst]
        exact ih _ _ (exInv_rollbackAction now a st ex h)
      · rw [if_neg (by simpa using hsr)]
        exact ih st ex h

theorem exInv_step (step : ExecStep) (s : AgentState × ExecutorState)
    (h : exInv s.2) : exInv (execStepApply step s).2 := by
  cases step with
  | exec now baseline a => exact exInv_execute now baseline a s.1 s.2 h
  | monitor fmt now current => exact exInv_monitorGo fmt now current _ s.1 s.2 h

/-- C9: in every state reachable by `execute` / `monitor_and_rollback`
steps from an empty active-intervention set, no two active interventions
share the same `(action_type, target)` pair. -/
theorem C9_no_duplicate_active_interventions (st0 : AgentState)
    (steps : List ExecStep) :
    ((execRun st0 steps).2.active_interventions).Pairwise noClash := by
  have hmain : exInv (execRun st0 steps).2 := by
    unfold execRun
    have : ∀ s : AgentState × ExecutorState, exInv s.2 →
        exInv (steps.foldl (fun s step => execStepApply step s) s).2 := by
      induction steps with
      | nil => intro s h; exact h
      | cons step rest ih =>
        intro s h
        exact ih _ (exInv_step step s h)
    exact this (st0, initExecutor) exInv_init
  exact hmain.1

/-! ### C6: decision-weight tuning -/

theorem sum_ones (l : List ℚ) (hall : ∀ x ∈ l, x = 1) :
    l.sum = (l.length : ℚ) := by
  induction l with
  | nil => simp
  | cons x xs ih =>
    rw [List.sum_cons, hall x (List.mem_cons_self x xs),
      ih (fun y hy => hall y (List.mem_cons_of_mem x hy)),
      List.length_cons]
    push_cast
    ring

theorem scoresSuccessRate_ones (outs : List OutcomeRec) :
    ∀ x ∈ scoresSuccessRate outs, x = 1 := by
  intro x hx
  rcases List.mem_filterMap.mp hx with ⟨o, _, hf⟩
  split at hf
  · exact (Option.some.inj hf).symm
  · cases hf

theorem scoresLatency_ones (outs : List OutcomeRec) :
    ∀ x ∈ scoresLatency outs, x = 1 := by
  intro x hx
  rcases List.mem_filterMap.mp hx with ⟨o, _, hf⟩
  split at hf
  · exact (Option.some.inj hf).symm
  · cases hf

theorem scoresCost_ones (outs : List OutcomeRec) :
    ∀ x ∈ scoresCost outs, x = 1 := by
  intro x hx
  rcases List.mem_filterMap.mp hx with ⟨o, _, hf⟩
  split at hf
  · exact (Option.some.inj hf).symm
  · cases hf

/-- With an all-ones score list the mean is 1, so the update moves the
weight by `lr/2` before clamping. -/
theorem updateObjective_ones (lr w : ℚ) (scores : List ℚ)
    (hne : ¬ scores = []) (hall : ∀ x ∈ scores, x = 1) :
    updateObjective lr w scores =
      max (5/100) (min (60/100) (w + lr * (1/2))) := by
  unfold updateObjective
  rw [if_neg hne]
  have hlen : (scores.length : ℚ) ≠ 0 := by
    have : scores.length ≠ 0 := fun hcon => hne (List.eq_nil_of_length_eq_zero hcon)
    exact_mod_cast this
  rw [sum_ones scores hall, div_self hlen]
  norm_num

theorem updateObjective_range (lr w : ℚ) (scores : List ℚ)
    (hw : 1/20 ≤ w ∧ w ≤ 3/5) :
    1/20 ≤ updateObjective lr w scores ∧ updateObjective lr w scores ≤ 3/5 := by
  unfold updateObjective
  split
  · exact hw
  · constructor
    · have : (5/100 : ℚ) = 1/20 := by norm_num
      rw [← this]
      exact le_max_left _ _
    · apply max_le
      · norm_num
      · calc min (60/100) (w + lr * (scores.sum / (scores.length : ℚ) - 1/2))
            ≤ 60/100 := min_le_left _ _
          _ ≤ 3/5 := by norm_num

theorem updateObjective_mono (w : ℚ) (scores : List ℚ)
    (hall : ∀ x ∈ scores, x = 1) (hw : 1/20 ≤ w ∧ w ≤ 3/5) :
    w ≤ updateObjective (1/10) w scores := by
  by_cases hne : scores = []
  · unfold updateObjective
    rw [if_pos hne]
  · rw [updateObjective_ones (1/10) w scores hne hall]
    have h1 : w ≤ min (60/100) (w + 1/10 * (1/2)) := by
      apply le_min
      · calc w ≤ 3/5 := hw.2
          _ ≤ 60/100 := by norm_num
      · linarith
    calc w ≤ min (60/100) (w + 1/10 * (1/2)) := h1
      _ ≤ max (5/100) (min (60/100) (w + 1/10 * (1/2))) := le_max_right _ _

theorem updateObjective_upper (w : ℚ) (scores : List ℚ)
    (hall : ∀ x ∈ scores, x = 1) (hw : 1/20 ≤ w ∧ w ≤ 3/5) :
    updateObjective (1/10) w scores ≤ w + 1/20 := by
  by_cases hne : scores = []
  · unfold updateObjective
    rw [if_pos hne]
    linarith
  · rw [updateObjective_ones (1/10) w scores hne hall]
    apply max_le
    · linarith [hw.1]
    · calc min (60/100) (w + 1/10 * (1/2)) ≤ w + 1/10 * (1/2) := min_le_right _ _
        _ = w + 1/20 := by ring

theorem updateObjective_risk (lr w : ℚ) (outs : List OutcomeRec) :
    updateObjective lr w (scoresRisk outs) = w := rfl

theorem scoresLatency_nil (outs : List OutcomeRec)
    (h : ∀ o ∈ outs, 0 ≤ o.est_latency_delta_ms) : scoresLatency outs = [] := by
  rw [scoresLatency, List.filterMap_eq_nil_iff]
  intro o ho
  rw [if_neg]
  intro hcon
  exact absurd hcon.2 (not_lt.mpr (h o ho))

theorem scoresCost_nil (outs : List OutcomeRec)
    (h : ∀ o ∈ outs, 2/100 < o.est_cost_delta_per_txn) : scoresCost outs = [] := by
  rw [scoresCost, List.filterMap_eq_nil_iff]
  intro o ho
  rw [if_neg]
  intro hcon
  exact absurd hcon.2 (not_le.mpr (h o ho))

theorem scoresSuccessRate_ne_nil (o : OutcomeRec) (rest : List OutcomeRec)
    (h1 : 0 < o.actual_success_rate_delta)
    (h2 : 0 < o.est_success_rate_delta) :
    ¬ scoresSuccessRate (o :: rest) = [] := by
  rw [scoresSuccessRate, List.filterMap_cons, if_pos ⟨h1, h2⟩]
  simp

set_option maxHeartbeats 1600000 in
/-- C6 (amended): starting from weights in `[0.05, 0.60]` that sum to 1,
`update_decision_weights` with learning rate 0.1 returns weights that
sum to 1 and lie in `[1/23, 0.60]` (normalisation can push a weight
below the 0.05 clamp); and the success-rate weight strictly increases
when there is at least one recorded outcome, every outcome has positive
actual and estimated success deltas, no outcome favours the latency or
cost objectives, and the pre-call success-rate weight is below 0.60. -/
theorem C6_update_decision_weights (outs : List OutcomeRec) (w : Weights)
    (hs : 1/20 ≤ w.success_rate ∧ w.success_rate ≤ 3/5)
    (hl : 1/20 ≤ w.latency ∧ w.latency ≤ 3/5)
    (hc : 1/20 ≤ w.cost ∧ w.cost ≤ 3/5)
    (hr : 1/20 ≤ w.risk ∧ w.risk ≤ 3/5)
    (hsum : w.success_rate + w.latency + w.cost + w.risk = 1) :
    ((updateDecisionWeights (1/10) outs w).success_rate +
      (updateDecisionWeights (1/10) outs w).latency +
      (updateDecisionWeights (1/10) outs w).cost +
      (updateDecisionWeights (1/10) outs w).risk = 1) ∧
    (1/23 ≤ (updateDecisionWeights (1/10) outs w).success_rate ∧
      (updateDecisionWeights (1/10) outs w).success_rate ≤ 3/5) ∧
    (1/23 ≤ (updateDecisionWeights (1/10) outs w).latency ∧
      (updateDecisionWeights (1/10) outs w).latency ≤ 3/5) ∧
    (1/23 ≤ (updateDecisionWeights (1/10) outs w).cost ∧
      (updateDecisionWeights (1/10) outs w).cost ≤ 3/5) ∧
    (1/23 ≤ (updateDecisionWeights (1/10) outs w).risk ∧
      (updateDecisionWeights (1/10) outs w).risk ≤ 3/5) ∧
    ((¬ outs = [] ∧
      (∀ o ∈ outs, 0 < o.actual_success_rate_delta ∧
        0 < o.est_success_rate_delta ∧ 0 ≤ o.est_latency_delta_ms ∧
        2/100 < o.est_cost_delta_per_txn) ∧
      w.success_rate < 3/5) →
      w.success_rate < (updateDecisionWeights (1/10) outs w).success_rate) := by
  have hws := updateObjective_range (1/10) w.success_rate (scoresSuccessRate outs) hs
  have hwl := updateObjective_range (1/10) w.latency (scoresLatency outs) hl
  have hwc := updateObjective_range (1/10) w.cost (scoresCost outs) hc
  have hwr := updateObjective_range (1/10) w.risk (scoresRisk outs) hr
  have hmono_s := updateObjective_mono w.success_rate (scoresSuccessRate outs)
    (scoresSuccessRate_ones outs) hs
  have hmono_l := updateObjective_mono w.latency (scoresLatency outs)
    (scoresLatency_ones outs) hl
  have hmono_c := updateObjective_mono w.cost (scoresCost outs)
    (scoresCost_ones outs) hc
  have hup_s := updateObjective_upper w.success_rate (scoresSuccessRate outs)
    (scoresSuccessRate_ones outs) hs
  have hup_l := updateObjective_upper w.latency (scoresLatency outs)
    (scoresLatency_ones outs) hl
  have hup_c := updateObjective_upper w.cost (scoresCost outs)
    (scoresCost_ones outs) hc
  have hrisk := updateObjective_risk (1/10) w.risk outs
  set ws' := updateObjective (1/10) w.success_rate (scoresSuccessRate outs) with hws'
  set wl' := updateObjective (1/10) w.latency (scoresLatency outs) with hwl'
  set wc' := updateObjective (1/10) w.cost (scoresCost outs) with hwc'
  set wr' := updateObjective (1/10) w.risk (scoresRisk outs) with hwr'
  have hT1 : 1 ≤ ws' + wl' + wc' + wr' := by
    rw [hrisk] at *
    linarith
  have hT2 : ws' + wl' + wc' + wr' ≤ 23/20 := by
    rw [hrisk] at *
    linarith
  have hT0 : 0 < ws' + wl' + wc' + wr' := by linarith
  have hWdef : updateDecisionWeights (1/10) outs w =
      ⟨ws' / (ws' + wl' + wc' + wr'), wl' / (ws' + wl' + wc' + wr'),
       wc' / (ws' + wl' + wc' + wr'), wr' / (ws' + wl' + wc' + wr')⟩ := rfl
  rw [hWdef]
  have hbound : ∀ x : ℚ, 1/20 ≤ x → x ≤ 3/5 →
      1/23 ≤ x / (ws' + wl' + wc' + wr') ∧
      x / (ws' + wl' + wc' + wr') ≤ 3/5 := by
    intro x hx1 hx2
    constructor
    · rw [le_div_iff hT0]
      nlinarith
    · rw [div_le_iff hT0]
      nlinarith
  refine ⟨?_, hbound _ hws.1 hws.2, hbound _ hwl.1 hwl.2,
    hbound _ hwc.1 hwc.2, hbound _ hwr.1 hwr.2, ?_⟩
  · show ws' / _ + wl' / _ + wc' / _ + wr' / _ = 1
    rw [div_add_div_same, div_add_div_same, div_add_div_same]
    exact div_self (ne_of_gt hT0)
  · rintro ⟨hne, hallo, hwslt⟩
    have hlnil : scoresLatency outs = [] :=
      scoresLatency_nil outs (fun o ho => (hallo o ho).2.2.1)
    have hcnil : scoresCost outs = [] :=
      scoresCost_nil outs (fun o ho => (hallo o ho).2.2.2)
    have hsnne : ¬ scoresSuccessRate outs = [] := by
      cases outs with
      | nil => exact absurd rfl hne
      | cons o rest =>
        exact scoresSuccessRate_ne_nil o rest
          (hallo o (List.mem_cons_self o rest)).1
          (hallo o (List.mem_cons_self o rest)).2.1
    have hwl_eq : wl' = w.latency := by
      rw [hwl', hlnil]
      rfl
    have hwc_eq : wc' = w.cost := by
      rw [hwc', hcnil]
      rfl
    have hws_eq : ws' = max (5/100) (min (60/100) (w.success_rate + 1/10 * (1/2))) := by
      rw [hws']
      exact updateObjective_ones (1/10) w.success_rate (scoresSuccessRate outs)
        hsnne (scoresSuccessRate_ones outs)
    have hlt : w.success_rate < ws' := by
      rw [hws_eq]
      have h1 : w.success_rate < min (60/100) (w.success_rate + 1/10 * (1/2)) := by
        apply lt_min
        · linarith
        · linarith
      calc w.success_rate < min (60/100) (w.success_rate + 1/10 * (1/2)) := h1
        _ ≤ max (5/100) (min (60/100) (w.success_rate + 1/10 * (1/2))) :=
          le_max_right _ _
    clear_value ws' wl' wc' wr'
    show w.success_rate < ws' / (ws' + wl' + wc' + wr')
    rw [lt_div_iff hT0]
    have hT_eq : ws' + wl' + wc' + wr' = ws' + (1 - w.success_rate) := by
      rw [hwl_eq, hwc_eq, hrisk]
      linarith
    rw [hT_eq]
    have h1ws : 0 < 1 - w.success_rate := by linarith
    nlinarith [mul_pos (sub_pos.mpr hlt) h1ws]

def c6outs : List OutcomeRec := [⟨1/10, 1/10, 5, 3/100⟩]

theorem C6_update_decision_weights_witness :
    ((updateDecisionWeights (1/10) c6outs defaultWeights).success_rate +
      (updateDecisionWeights (1/10) c6outs defaultWeights).latency +
      (updateDecisionWeights (1/10) c6outs defaultWeights).cost +
      (updateDecisionWeights (1/10) c6outs defaultWeights).risk = 1) ∧
    defaultWeights.success_rate <
      (updateDecisionWeights (1/10) c6outs defaultWeights).success_rate := by
  have h := C6_update_decision_weights c6outs defaultWeights
    (by norm_num [defaultWeights]) (by norm_num [defaultWeights])
    (by norm_num [defaultWeights]) (by norm_num [defaultWeights])
    (by norm_num [defaultWeights])
  refine ⟨h.1, h.2.2.2.2.2 ⟨by simp [c6outs], ?_, by norm_num [defaultWeights]⟩⟩
  intro o ho
  rw [c6outs, List.mem_singleton] at ho
  subst ho
  norm_num

def c6w0 : Weights := ⟨55/100, 25/100, 15/100, 5/100⟩

def c6outs0 : List OutcomeRec := [⟨1/10, 1/10, -10, 0⟩]

/-- C6 is false as stated: with in-range weights summing to 1 and a
single recorded outcome whose actual and estimated success deltas are
positive (and which also favours latency and cost), normalisation pushes
the risk weight below 0.05 and the success-rate weight strictly
decreases. -/
theorem C6_counterexample :
    (∀ o ∈ c6outs0, 0 < o.actual_success_rate_delta ∧
      0 < o.est_success_rate_delta) ∧
    (c6w0.success_rate + c6w0.latency + c6w0.cost + c6w0.risk = 1) ∧
    (updateDecisionWeights (1/10) c6outs0 c6w0).risk < 5/100 ∧
    (updateDecisionWeights (1/10) c6outs0 c6w0).success_rate <
      c6w0.success_rate := by
  have h1 : scoresSuccessRate c6outs0 = [1] := by
    rw [scoresSuccessRate, c6outs0, List.filterMap_cons, if_pos (by norm_num)]
    rfl
  have h2 : scoresLatency c6outs0 = [1] := by
    rw [scoresLatency, c6outs0, List.filterMap_cons, if_pos (by norm_num)]
    rfl
  have h3 : scoresCost c6outs0 = [1] := by
    rw [scoresCost, c6outs0, List.filterMap_cons, if_pos (by norm_num)]
    rfl
  have hobj : ∀ w : ℚ, updateObjective (1/10) w [1] =
      max (5/100) (min (60/100) (w + 1/20)) := by
    intro w
    rw [updateObjective_ones (1/10) w [1] (by simp) (by simp)]
    norm_num
  have hval : updateDecisionWeights (1/10) c6outs0 c6w0 =
      ⟨12/23, 6/23, 4/23, 1/23⟩ := by
    unfold updateDecisionWeights
    rw [h1, h2, h3, hobj, hobj, hobj, updateObjective_risk]
    rw [c6w0]
    have hs : max (5/100) (min (60/100) ((55/100 : ℚ) + 1/20)) = 3/5 := by
      rw [min_def, max_def]
      norm_num
    have hl : max (5/100) (min (60/100) ((25/100 : ℚ) + 1/20)) = 3/10 := by
      rw [min_def, max_def]
      norm_num
    have hc : max (5/100) (min (60/100) ((15/100 : ℚ) + 1/20)) = 1/5 := by
      rw [min_def, max_def]
      norm_num
    show (⟨_, _, _, _⟩ : Weights) = _
    rw [hs, hl, hc]
    norm_num
  refine ⟨?_, by norm_num [c6w0], ?_, ?_⟩
  · intro o ho
    rw [c6outs0, List.mem_singleton] at ho
    subst ho
    norm_num
  · rw [hval]
    norm_num
  · rw [hval]
    norm_num [c6w0]

/-! ### C7: the issuer-degradation detector -/

theorem mem_of_lookupCell (l : StatDict) (i : String)
    (h : ¬ (lookupCell l i).total = 0) : (i, lookupCell l i) ∈ l := by
  unfold lookupCell at *
  cases hf : l.find? (fun p => decide (p.1 = i)) with
  | none =>
    rw [hf] at h
    simp [Cell.zero] at h
  | some p =>
    have hmem := List.mem_of_find?_eq_some hf
    have hkey : p.1 = i := by simpa using List.find?_some hf
    show (i, p.2) ∈ l
    rw [← hkey]
    exact hmem

/-- The pattern `_detect_issuer_degradation` builds for issuer `i` with
counter cell `c`. -/
def degPattern (conf : Int → ℚ → ℚ) (b : Baselines) (s : ObserverState)
    (i : String) (c : Cell) : Pattern :=
  { pattern_type := "issuer_degradation"
    severity := min ((b.issuer_success_rates i -
      (c.success : ℚ) / (c.total : ℚ)) / (3/10)) 1
    confidence := conf c.total (b.issuer_success_rates i -
      (c.success : ℚ) / (c.total : ℚ))
    affected_dimension := "issuer"
    affected_value := i
    metrics :=
      [("current_success_rate", (c.success : ℚ) / (c.total : ℚ)),
       ("baseline_success_rate", b.issuer_success_rates i),
       ("degradation", b.issuer_success_rates i -
         (c.success : ℚ) / (c.total : ℚ)),
       ("volume", (c.total : ℚ)),
       ("avg_latency", (getLatencyStatsByIssuer s i).mean)] }

/-- C7: the issuer-degradation detector emits a pattern for issuer `i`
iff `i`'s in-window volume is at least 10 and the baseline-minus-current
success-rate gap is at least 0.15; every such pattern carries severity
`min(degradation / 0.30, 1)`. In particular nothing is emitted at
volume 9. -/
theorem C7_issuer_degradation (conf : Int → ℚ → ℚ) (b : Baselines)
    (s : ObserverState) (i : String)
    (hnd : (s.statsByIssuer.map Prod.fst).Nodup) :
    ((∃ p ∈ detectIssuerDegradation conf b s, p.affected_value = i) ↔
      (10 ≤ (lookupCell s.statsByIssuer i).total ∧
        15/100 ≤ b.issuer_success_rates i -
          ((lookupCell s.statsByIssuer i).success : ℚ) /
            ((lookupCell s.statsByIssuer i).total : ℚ))) ∧
    (∀ p ∈ detectIssuerDegradation conf b s, p.affected_value = i →
      p.severity = min ((b.issuer_success_rates i -
        ((lookupCell s.statsByIssuer i).success : ℚ) /
          ((lookupCell s.statsByIssuer i).total : ℚ)) / (3/10)) 1) := by
  have hmemHealth : ∀ (iss : String) (h : HealthEntry),
      (iss, h) ∈ getIssuerHealth s →
        ∃ c : Cell, (iss, c) ∈ s.statsByIssuer ∧ ¬ c.total = 0 ∧
          h.success_rate = (c.success : ℚ) / (c.total : ℚ) ∧
          h.volume = c.total := by
    intro iss h hm
    unfold getIssuerHealth at hm
    rcases List.mem_filterMap.mp hm with ⟨⟨k, c⟩, hkc, hf⟩
    by_cases hz : c.total = 0
    · rw [if_pos hz] at hf
      cases hf
    · rw [if_neg hz] at hf
      have hk : k = iss := by
        simpa using congrArg Prod.fst (Option.some.inj hf)
      have hh : (⟨(c.success : ℚ) / (c.total : ℚ),
          1 - (c.success : ℚ) / (c.total : ℚ), c.total,
          (getLatencyStatsByIssuer s k).mean,
          (getLatencyStatsByIssuer s k).p95⟩ : HealthEntry) = h := by
        simpa using congrArg Prod.snd (Option.some.inj hf)
      refine ⟨c, hk ▸ hkc, hz, ?_, ?_⟩
      · rw [← hh]
      · rw [← hh]
  have hlookup : ∀ (iss : String) (c : Cell), (iss, c) ∈ s.statsByIssuer →
      lookupCell s.statsByIssuer iss = c :=
    fun iss c hm => lookupCell_of_mem_nodup _ iss c hnd hm
  constructor
  · constructor
    · rintro ⟨p, hp, haff⟩
      unfold detectIssuerDegradation at hp
      rcases List.mem_filterMap.mp hp with ⟨⟨iss, h⟩, hmem, hf⟩
      by_cases hcond : 10 ≤ h.volume ∧
          15/100 ≤ b.issuer_success_rates iss - h.success_rate
      · rw [if_pos hcond] at hf
        have hav : p.affected_value = iss := by
          rw [← Option.some.inj hf]
        rw [hav] at haff
        subst haff
        rcases hmemHealth iss h hmem with ⟨c, hmemc, hz, hrate, hvol⟩
        rw [hlookup iss c hmemc]
        rw [hvol] at hcond
        rw [hrate] at hcond
        exact hcond
      · rw [if_neg hcond] at hf
        cases hf
    · rintro ⟨hvol, hdeg⟩
      have hz : ¬ (lookupCell s.statsByIssuer i).total = 0 := by
        intro hcon
        rw [hcon] at hvol
        omega
      have hmem := mem_of_lookupCell s.statsByIssuer i hz
      set c := lookupCell s.statsByIssuer i with hc
      have hhm : (i, (⟨(c.success : ℚ) / (c.total : ℚ),
          1 - (c.success : ℚ) / (c.total : ℚ), c.total,
          (getLatencyStatsByIssuer s i).mean,
          (getLatencyStatsByIssuer s i).p95⟩ : HealthEntry)) ∈
          getIssuerHealth s := by
        unfold getIssuerHealth
        apply List.mem_filterMap.mpr
        exact ⟨(i, c), hmem, by rw [if_neg hz]⟩
      unfold detectIssuerDegradation
      have happ : (if (10 : Int) ≤ c.total ∧
            15/100 ≤ b.issuer_success_rates i -
              (c.success : ℚ) / (c.total : ℚ) then
          some (degPattern conf b s i c) else none) =
          some (degPattern conf b s i c) := if_pos ⟨hvol, hdeg⟩
      exact ⟨degPattern conf b s i c,
        List.mem_filterMap.mpr ⟨_, hhm, happ⟩, rfl⟩
  · intro p hp haff
    unfold detectIssuerDegradation at hp
    rcases List.mem_filterMap.mp hp with ⟨⟨iss, h⟩, hmem, hf⟩
    by_cases hcond : 10 ≤ h.volume ∧
        15/100 ≤ b.issuer_success_rates iss - h.success_rate
    · rw [if_pos hcond] at hf
      have hav : p.affected_value = iss := by
        rw [← Option.some.inj hf]
      have hsev : p.severity =
          min ((b.issuer_success_rates iss - h.success_rate) / (3/10)) 1 := by
        rw [← Option.some.inj hf]
      rw [hav] at haff
      subst haff
      rcases hmemHealth iss h hmem with ⟨c, hmemc, hz, hrate, hvol⟩
      rw [hlookup iss c hmemc, hsev, hrate]
    · rw [if_neg hcond] at hf
      cases hf

def c7s : ObserverState :=
  { window := [], statsOverall := [],
    statsByIssuer := [("HDFC", ⟨4, 6, 10⟩)],
    statsByMethod := [], statsByRegion := [], statsByMerchant := [],
    latOverall := [], latByIssuer := [], latByMethod := [],
    error_codes := [], error_messages := [], retry_stats := [] }

theorem C7_issuer_degradation_witness :
    (∃ p ∈ detectIssuerDegradation (fun _ _ => 0) defaultBaselines c7s,
      p.affected_value = "HDFC") ∧
    (∀ p ∈ detectIssuerDegradation (fun _ _ => 0) defaultBaselines c7s,
      p.affected_value = "HDFC" →
      p.severity = min ((defaultBaselines.issuer_success_rates "HDFC" -
        ((lookupCell c7s.statsByIssuer "HDFC").success : ℚ) /
          ((lookupCell c7s.statsByIssuer "HDFC").total : ℚ)) / (3/10)) 1) := by
  have h := C7_issuer_degradation (fun _ _ => 0) defaultBaselines c7s "HDFC"
    (by decide)
  refine ⟨h.1.mpr ?_, h.2⟩
  have hcell : lookupCell c7s.statsByIssuer "HDFC" = ⟨4, 6, 10⟩ := rfl
  rw [hcell]
  constructor
  · norm_num
  · show (15/100 : ℚ) ≤ defaultBaselines.issuer_success_rates "HDFC" -
      ((4 : ℚ) / (10 : ℚ))
    norm_num [defaultBaselines]
